import Mathlib

/-!
Verification of the uc3m_money account-management modules
(`account_deposit.py`, `transfer_request.py`, `account_manager.py`).

The Python code is shallowly embedded: JSON documents become an inductive
value type, the stateful file operations become explicit parameters
(file present / syntactically-invalid / parsed value), Python floats are
represented by their decimal display form with rational values, and the
single typed exception `AccountManagementException` becomes an error
constructor carrying its message, kept apart from the untyped Python
exceptions (`KeyError`, `TypeError`, `AttributeError`) that some code
paths can raise.

Modelling restrictions, stated once here: character classes for the
regular expressions (Python `\d`, `\s`, `str.split()`) are modelled over
their ASCII members; Python `float()` is modelled as an exact rational
parser of the same finite-literal grammar (the `inf`/`nan` literals and
binary rounding are outside the model); float display strings are carried
as data wherever the Python code formats a float.
-/

/-! ## Python-style JSON values

A parsed JSON document, as produced by `json.load`.  Numbers keep their
source text (the pipelines never do arithmetic on JSON numbers directly;
they only compare values against strings, which in Python is type-strict).
-/

inductive JsonVal : Type where
  | jnull : JsonVal
  | jbool : Bool → JsonVal
  | jnum : String → JsonVal
  | jstr : String → JsonVal
  | jarr : List JsonVal → JsonVal
  | jobj : List (String × JsonVal) → JsonVal

namespace JsonVal

/-- Python `v == s` for a JSON value `v` and a `str` `s`: true exactly when
`v` is a string with the same characters (Python equality across types is
`False`, never an error). -/
def pyEqStr : JsonVal → String → Bool
  | jstr t, s => t == s
  | _, _ => false

/-- Python `k in d` for a dict built by `json.load`. -/
def hasKey (fs : List (String × JsonVal)) (k : String) : Bool :=
  fs.any (fun p => p.1 == k)

/-- Python `d[k]` for a dict built by `json.load`: duplicate source keys
overwrite earlier ones, so the last binding wins. -/
def lookupLast (fs : List (String × JsonVal)) (k : String) : Option JsonVal :=
  match fs with
  | [] => none
  | (k', v) :: rest =>
      match lookupLast rest k with
      | some w => some w
      | none => if k' == k then some v else none

end JsonVal

/-! ## Strict JSON loader (`account_deposit.load_json_with_duplicate_check`)

`json.load` invokes `object_pairs_hook` once per completed object, innermost
objects first, and the hook increments a count per key name in a dictionary
`key_counts` shared across all hook invocations of one load.  `hookKeys`
lists every object key of the document in exactly that order. -/

mutual

def hookKeys : JsonVal → List String
  | .jobj fs => hookKeysFields fs ++ fs.map (fun p => p.1)
  | .jarr xs => hookKeysArr xs
  | _ => []

def hookKeysArr : List JsonVal → List String
  | [] => []
  | x :: xs => hookKeys x ++ hookKeysArr xs

def hookKeysFields : List (String × JsonVal) → List String
  | [] => []
  | (_, v) :: fs => hookKeys v ++ hookKeysFields fs

end

/-- First element of the list that was already seen earlier (the key whose
count reaches 2 first), if any. -/
def firstRepeatAux (seen : List String) : List String → Option String
  | [] => none
  | x :: xs => if seen.contains x then some x else firstRepeatAux (x :: seen) xs

def firstRepeat (l : List String) : Option String :=
  firstRepeatAux [] l

mutual

/-- Does some JSON object of the document repeat a key within its own
key list?  (The reading of "duplicate keys" used by the specification.) -/
def objLocalDup : JsonVal → Bool
  | .jobj fs => (firstRepeat (fs.map (fun p => p.1))).isSome || objLocalDupFields fs
  | .jarr xs => objLocalDupArr xs
  | _ => false

def objLocalDupArr : List JsonVal → Bool
  | [] => false
  | x :: xs => objLocalDup x || objLocalDupArr xs

def objLocalDupFields : List (String × JsonVal) → Bool
  | [] => false
  | (_, v) :: fs => objLocalDup v || objLocalDupFields fs

end

/-- Result of `load_json_with_duplicate_check`.  `decodeError` models a
`json.JSONDecodeError` escaping from `json.load` (the file text is not
valid JSON); `dupKey k` models the `AccountManagementException`
"Duplicate k key found in JSON" raised by the hook. -/
inductive LoadErr : Type where
  | decodeError : LoadErr
  | dupKey : String → LoadErr
deriving Repr, DecidableEq

/-- Embedding of `load_json_with_duplicate_check`.  The input is the
syntactic parse of the file text: `none` when the text is not valid JSON,
`some v` when it parses to the document `v`.  The shared `key_counts`
dictionary makes the hook raise at the first key name whose total count,
across every object of the document, reaches 2. -/
def load_json_with_duplicate_check : Option JsonVal → Except LoadErr JsonVal
  | none => .error .decodeError
  | some v =>
      match firstRepeat (hookKeys v) with
      | some k => .error (.dupKey k)
      | none => .ok v

/-! ## IBAN validators (three variants)

`TransferRequest.validate_iban` uses `re.fullmatch(r"ES\d{22}", iban)`;
`account_deposit.validate_iban` and `AccountManager.validate_iban` use
`re.match`, which only anchors at the start of the string. -/

/-- Language of `re.fullmatch(r"ES\d{22}", s)`: the whole string is `ES`
followed by exactly 22 digits. -/
def es22Full (s : String) : Bool :=
  s.data.take 2 == ['E', 'S'] && (s.data.drop 2).length == 22 &&
    (s.data.drop 2).all Char.isDigit

/-- Language of `re.match(r"ES\d{22}", s)`: some initial segment of the
string is `ES` followed by 22 digits; anything may follow. -/
def es22Head (s : String) : Bool :=
  s.data.take 2 == ['E', 'S'] && decide (22 ≤ (s.data.drop 2).length) &&
    ((s.data.drop 2).take 22).all Char.isDigit

namespace TransferRequest

/-- Embedding of `TransferRequest.validate_iban` (static method):
full-match against `ES\d{22}`, raising `AccountManagementException` with
a fixed message otherwise, returning the input on success. -/
def validate_iban (iban : String) : Except String String :=
  if es22Full iban then .ok iban
  else .error "Invalid IBAN: Must start with 'ES' and contain 24 digits"

end TransferRequest

/-- Python `str.split()` with no separator: split on runs of whitespace,
dropping empty tokens. -/
def pySplitWsAux (cur : List Char) : List Char → List String
  | [] => if cur.isEmpty then [] else [String.mk cur.reverse]
  | c :: cs =>
      if c.isWhitespace then
        if cur.isEmpty then pySplitWsAux [] cs
        else String.mk cur.reverse :: pySplitWsAux [] cs
      else pySplitWsAux (c :: cur) cs

def pySplitWs (s : String) : List String :=
  pySplitWsAux [] s.data

namespace AccountDeposit

/-- Embedding of module-level `validate_iban` in `account_deposit.py`.
The argument is the JSON value found under the `iban` key (the
`isinstance(iban, str)` guard makes non-strings return `False`).  After a
start-anchored match of `ES\d{22}` the function splits the string on
whitespace and raises when two tokens coincide. -/
def validate_iban (iban : JsonVal) : Except String Bool :=
  match iban with
  | .jstr s =>
      if !es22Head s then .ok false
      else
        let parts := pySplitWs s
        if (firstRepeat parts).isSome then .error "Duplicate IBAN value detected"
        else .ok true
  | _ => .ok false

end AccountDeposit

namespace AccountManager

/-- Embedding of `AccountManager.validate_iban`: `isinstance` guard plus a
start-anchored `re.match(r"ES\d{22}", iban)` converted to `bool`. -/
def validate_iban (iban : String) : Bool :=
  es22Head iban

end AccountManager

/-! Sanity examples (loader and validators on concrete inputs). -/

example : load_json_with_duplicate_check
    (some (.jobj [("a", .jnum "1"), ("b", .jnum "2")])) =
    .ok (.jobj [("a", .jnum "1"), ("b", .jnum "2")]) := rfl

example : load_json_with_duplicate_check
    (some (.jobj [("a", .jobj [("x", .jnum "1")]), ("b", .jobj [("x", .jnum "2")])])) =
    .error (.dupKey "x") := rfl

example : TransferRequest.validate_iban "ES9121000418450200051332" =
    .ok "ES9121000418450200051332" := rfl

example : TransferRequest.validate_iban "ES1234567890123456789012X" =
    .error "Invalid IBAN: Must start with 'ES' and contain 24 digits" := rfl

example : AccountManager.validate_iban "ES1234567890123456789012X" = true := rfl

example : AccountDeposit.validate_iban (.jstr "ES1234567890123456789012X") =
    .ok true := rfl

example : AccountDeposit.validate_iban
    (.jstr "ES1234567890123456789012 ES1234567890123456789012") =
    .error "Duplicate IBAN value detected" := rfl

/-! ## Signature engine

`AccountDeposit.deposit_signature` is `hashlib.sha256(...).hexdigest()` of
the canonical brace string; `TransferRequest.transfer_code` is
`hashlib.md5(str(self)).hexdigest()` where `str(self)` serialises the
instance dictionary with `json.dumps`.  Both hash functions are embedded
in full over byte lists, with 32-bit words as naturals reduced modulo
2^32. -/

def add32 (a b : Nat) : Nat := (a + b) % 4294967296

def not32 (x : Nat) : Nat := x ^^^ 4294967295

def rotr32 (x n : Nat) : Nat := ((x >>> n) ||| (x <<< (32 - n))) % 4294967296

def rotl32 (x n : Nat) : Nat := ((x <<< n) ||| (x >>> (32 - n))) % 4294967296

/-- Big-endian 8-byte encoding of a (64-bit) natural. -/
def beBytes8 (n : Nat) : List Nat :=
  [n >>> 56 % 256, n >>> 48 % 256, n >>> 40 % 256, n >>> 32 % 256,
   n >>> 24 % 256, n >>> 16 % 256, n >>> 8 % 256, n % 256]

/-- Little-endian 8-byte encoding of a (64-bit) natural. -/
def leBytes8 (n : Nat) : List Nat :=
  [n % 256, n >>> 8 % 256, n >>> 16 % 256, n >>> 24 % 256,
   n >>> 32 % 256, n >>> 40 % 256, n >>> 48 % 256, n >>> 56 % 256]

/-- Merkle–Damgård padding: append 0x80, zeros, then the 8-byte bit length
(big- or little-endian per `be`), reaching a multiple of 64 bytes. -/
def mdPad (be : Bool) (msg : List Nat) : List Nat :=
  let zeros := (119 - msg.length % 64) % 64
  msg ++ 128 :: List.replicate zeros 0 ++
    (if be then beBytes8 (8 * msg.length) else leBytes8 (8 * msg.length))

/-- Split into 64-byte blocks; the fuel argument only bounds recursion and
is instantiated with the list length. -/
def chunk64 : Nat → List Nat → List (List Nat)
  | 0, _ => []
  | _ + 1, [] => []
  | fuel + 1, l => l.take 64 :: chunk64 fuel (l.drop 64)

def beWord (a b c d : Nat) : Nat := ((a * 256 + b) * 256 + c) * 256 + d

def leWord (a b c d : Nat) : Nat := ((d * 256 + c) * 256 + b) * 256 + a

def toWordsBE : List Nat → List Nat
  | a :: b :: c :: d :: rest => beWord a b c d :: toWordsBE rest
  | _ => []

def toWordsLE : List Nat → List Nat
  | a :: b :: c :: d :: rest => leWord a b c d :: toWordsLE rest
  | _ => []

/-- Integer cube root by bounded binary search (fuel-driven). -/
def icbrtGo (n : Nat) : Nat → Nat → Nat → Nat
  | 0, lo, _ => lo
  | fuel + 1, lo, hi =>
      let mid := (lo + hi) / 2
      if mid = lo then lo
      else if mid * mid * mid ≤ n then icbrtGo n fuel mid hi
      else icbrtGo n fuel lo mid

def icbrt (n : Nat) : Nat := icbrtGo n 200 0 (n + 1)

/-- The first 64 primes, used to derive the SHA-256 round constants. -/
def sha256Primes : List Nat :=
  [2, 3, 5, 7, 11, 13, 17, 19, 23, 29, 31, 37, 41, 43, 47, 53, 59, 61, 67,
   71, 73, 79, 83, 89, 97, 101, 103, 107, 109, 113, 127, 131, 137, 139, 149,
   151, 157, 163, 167, 173, 179, 181, 191, 193, 197, 199, 211, 223, 227, 229,
   233, 239, 241, 251, 257, 263, 269, 271, 277, 281, 283, 293, 307, 311]

/-- SHA-256 round constants: fractional parts of the cube roots of the
first 64 primes, scaled by 2^32. -/
def sha256K : List Nat :=
  sha256Primes.map (fun p => icbrt (p <<< 96) % 4294967296)

structure Sha256State where
  a : Nat
  b : Nat
  c : Nat
  d : Nat
  e : Nat
  f : Nat
  g : Nat
  h : Nat

/-- SHA-256 initial state: fractional parts of the square roots of the
first 8 primes, scaled by 2^32. -/
def sha256Init : Sha256State :=
  match sha256Primes.map (fun p => Nat.sqrt (p <<< 64) % 4294967296) with
  | [a, b, c, d, e, f, g, h] => ⟨a, b, c, d, e, f, g, h⟩
  | l => ⟨l.getD 0 0, l.getD 1 0, l.getD 2 0, l.getD 3 0,
          l.getD 4 0, l.getD 5 0, l.getD 6 0, l.getD 7 0⟩

def sha256SmallSigma0 (x : Nat) : Nat := rotr32 x 7 ^^^ rotr32 x 18 ^^^ (x >>> 3)

def sha256SmallSigma1 (x : Nat) : Nat := rotr32 x 17 ^^^ rotr32 x 19 ^^^ (x >>> 10)

def sha256BigSigma0 (x : Nat) : Nat := rotr32 x 2 ^^^ rotr32 x 13 ^^^ rotr32 x 22

def sha256BigSigma1 (x : Nat) : Nat := rotr32 x 6 ^^^ rotr32 x 11 ^^^ rotr32 x 25

/-- Extend the 16 block words to the 64-word message schedule. -/
def sha256Extend : Nat → List Nat → List Nat
  | 0, w => w
  | fuel + 1, w =>
      let i := w.length
      let nw := add32 (add32 (sha256SmallSigma1 (w.getD (i - 2) 0)) (w.getD (i - 7) 0))
        (add32 (sha256SmallSigma0 (w.getD (i - 15) 0)) (w.getD (i - 16) 0))
      sha256Extend fuel (w ++ [nw])

def sha256Round (s : Sha256State) (kw : Nat × Nat) : Sha256State :=
  let ch := (s.e &&& s.f) ^^^ (not32 s.e &&& s.g)
  let maj := (s.a &&& s.b) ^^^ (s.a &&& s.c) ^^^ (s.b &&& s.c)
  let t1 := add32 (add32 (add32 s.h (sha256BigSigma1 s.e)) (add32 ch kw.1)) kw.2
  let t2 := add32 (sha256BigSigma0 s.a) maj
  ⟨add32 t1 t2, s.a, s.b, s.c, add32 s.d t1, s.e, s.f, s.g⟩

def sha256Block (s : Sha256State) (block : List Nat) : Sha256State :=
  let w := sha256Extend 48 (toWordsBE block)
  let t := (sha256K.zip w).foldl sha256Round s
  ⟨add32 s.a t.a, add32 s.b t.b, add32 s.c t.c, add32 s.d t.d,
   add32 s.e t.e, add32 s.f t.f, add32 s.g t.g, add32 s.h t.h⟩

def be4 (x : Nat) : List Nat := [x >>> 24 % 256, x >>> 16 % 256, x >>> 8 % 256, x % 256]

def le4 (x : Nat) : List Nat := [x % 256, x >>> 8 % 256, x >>> 16 % 256, x >>> 24 % 256]

/-- SHA-256 digest (32 bytes) of a byte list. -/
def sha256Bytes (msg : List Nat) : List Nat :=
  let padded := mdPad true msg
  let s := (chunk64 padded.length padded).foldl sha256Block sha256Init
  be4 s.a ++ be4 s.b ++ be4 s.c ++ be4 s.d ++ be4 s.e ++ be4 s.f ++ be4 s.g ++ be4 s.h

/-- MD5 sine-derived additive constants (RFC 1321): the integer parts of
4294967296 * abs(sin(i)) for i = 1..64. -/
def md5T : List Nat :=
  [3614090360, 3905402710, 606105819, 3250441966, 4118548399, 1200080426,
   2821735955, 4249261313, 1770035416, 2336552879, 4294925233, 2304563134,
   1804603682, 4254626195, 2792965006, 1236535329, 4129170786, 3225465664,
   643717713, 3921069994, 3593408605, 38016083, 3634488961, 3889429448,
   568446438, 3275163606, 4107603335, 1163531501, 2850285829, 4243563512,
   1735328473, 2368359562, 4294588738, 2272392833, 1839030562, 4259657740,
   2763975236, 1272893353, 4139469664, 3200236656, 681279174, 3936430074,
   3572445317, 76029189, 3654602809, 3873151461, 530742520, 3299628645,
   4096336452, 1126891415, 2878612391, 4237533241, 1700485571, 2399980690,
   4293915773, 2240044497, 1873313359, 4264355552, 2734768916, 1309151649,
   4149444226, 3174756917, 718787259, 3951481745]

/-- MD5 per-step left-rotation amounts. -/
def md5S : List Nat :=
  [7, 12, 17, 22, 7, 12, 17, 22, 7, 12, 17, 22, 7, 12, 17, 22,
   5, 9, 14, 20, 5, 9, 14, 20, 5, 9, 14, 20, 5, 9, 14, 20,
   4, 11, 16, 23, 4, 11, 16, 23, 4, 11, 16, 23, 4, 11, 16, 23,
   6, 10, 15, 21, 6, 10, 15, 21, 6, 10, 15, 21, 6, 10, 15, 21]

structure Md5State where
  a : Nat
  b : Nat
  c : Nat
  d : Nat

def md5Init : Md5State := ⟨1732584193, 4023233417, 2562383102, 271733878⟩

def md5Step (x : List Nat) (st : Md5State) (i : Nat) : Md5State :=
  let fg : Nat × Nat :=
    if i < 16 then ((st.b &&& st.c) ||| (not32 st.b &&& st.d), i)
    else if i < 32 then ((st.d &&& st.b) ||| (not32 st.d &&& st.c), (5 * i + 1) % 16)
    else if i < 48 then (st.b ^^^ st.c ^^^ st.d, (3 * i + 5) % 16)
    else (st.c ^^^ (st.b ||| not32 st.d), (7 * i) % 16)
  let tmp := add32 (add32 (add32 st.a fg.1) (x.getD fg.2 0)) (md5T.getD i 0)
  ⟨st.d, add32 st.b (rotl32 tmp (md5S.getD i 0)), st.b, st.c⟩

def md5Block (s : Md5State) (block : List Nat) : Md5State :=
  let x := toWordsLE block
  let t := (List.range 64).foldl (md5Step x) s
  ⟨add32 s.a t.a, add32 s.b t.b, add32 s.c t.c, add32 s.d t.d⟩

/-- MD5 digest (16 bytes) of a byte list. -/
def md5Bytes (msg : List Nat) : List Nat :=
  let padded := mdPad false msg
  let s := (chunk64 padded.length padded).foldl md5Block md5Init
  le4 s.a ++ le4 s.b ++ le4 s.c ++ le4 s.d

/-! Lowercase hexadecimal rendering, as `hexdigest` produces. -/

def hexChars : List Char := "0123456789abcdef".data

def hexDigit (n : Nat) : Char := hexChars.getD n 'f'

def byteHex (b : Nat) : List Char := [hexDigit (b / 16 % 16), hexDigit (b % 16)]

def hexString (bytes : List Nat) : String := String.mk ((bytes.map byteHex).flatten)

/-- UTF-8 bytes of a string, as Python `str.encode()` yields. -/
def strBytes (s : String) : List Nat := s.toUTF8.toList.map (fun b => b.toNat)

/-! ## Canonical record strings -/

def hex4 (n : Nat) : List Char :=
  [hexDigit (n / 4096 % 16), hexDigit (n / 256 % 16), hexDigit (n / 16 % 16), hexDigit (n % 16)]

/-- Escaping of one character inside a JSON string literal, as
`json.dumps` performs with its default `ensure_ascii=True`: the two
metacharacters and the named control characters get short escapes, other
control and all non-ASCII characters become `u`-escapes (surrogate pairs
beyond the basic plane). -/
def jsonEscapeChar (c : Char) : List Char :=
  if c = '"' then ['\\', '"']
  else if c = '\\' then ['\\', '\\']
  else if c = '\n' then ['\\', 'n']
  else if c = '\t' then ['\\', 't']
  else if c = '\r' then ['\\', 'r']
  else if c.toNat = 8 then ['\\', 'b']
  else if c.toNat = 12 then ['\\', 'f']
  else if c.toNat < 32 then '\\' :: 'u' :: hex4 c.toNat
  else if c.toNat < 127 then [c]
  else if c.toNat < 65536 then '\\' :: 'u' :: hex4 c.toNat
  else
    let v := c.toNat - 65536
    ('\\' :: 'u' :: hex4 (55296 + v / 1024)) ++ ('\\' :: 'u' :: hex4 (56320 + v % 1024))

def jsonEscape (s : String) : String :=
  String.mk ((s.data.map jsonEscapeChar).flatten)

namespace AccountDeposit

/-- Embedding of `AccountDeposit.__signature_string`: the brace-and-colon
canonical string over the frozen `alg`/`type` constants, the IBAN, and the
`str()` forms of the amount and the timestamp (passed as the strings
Python would display, since both are floats). -/
def signature_string (iban amountRepr dateRepr : String) : String :=
  "\x7balg:SHA-256,typ:DEPOSIT,iban:" ++ iban ++ ",amount:" ++ amountRepr ++
    ",deposit_date:" ++ dateRepr ++ "\x7d"

/-- Embedding of the `deposit_signature` property:
`hashlib.sha256(signature_string.encode()).hexdigest()`. -/
def deposit_signature (iban amountRepr dateRepr : String) : String :=
  hexString (sha256Bytes (strBytes (signature_string iban amountRepr dateRepr)))

end AccountDeposit

namespace TransferRequest

/-- Embedding of `TransferRequest.__str__`:
`"Transfer:" + json.dumps(self.__dict__)`, with the name-mangled private
attributes in assignment order and the two float fields rendered by their
display strings. -/
def transfer_string (fromIban toIban ttype concept date amountRepr tsRepr : String) : String :=
  "Transfer:\x7b\"_TransferRequest__from_iban\": \"" ++ jsonEscape fromIban ++
    "\", \"_TransferRequest__to_iban\": \"" ++ jsonEscape toIban ++
    "\", \"_TransferRequest__transfer_type\": \"" ++ jsonEscape ttype ++
    "\", \"_TransferRequest__concept\": \"" ++ jsonEscape concept ++
    "\", \"_TransferRequest__transfer_date\": \"" ++ jsonEscape date ++
    "\", \"_TransferRequest__transfer_amount\": " ++ amountRepr ++
    ", \"_TransferRequest__time_stamp\": " ++ tsRepr ++ "\x7d"

/-- Embedding of the `transfer_code` property:
`hashlib.md5(str(self).encode()).hexdigest()`. -/
def transfer_code (fromIban toIban ttype concept date amountRepr tsRepr : String) : String :=
  hexString (md5Bytes (strBytes
    (transfer_string fromIban toIban ttype concept date amountRepr tsRepr)))

end TransferRequest

/-! ## Python numbers

A Python `float` in the plain-decimal display regime (every value the
transfer pipeline's bounds admit displays this way) is modelled by its
display digits; its numeric value is the displayed rational, which orders
consistently with the underlying binary float because `repr` round-trips.
A Python `int` is exact. -/

def digitChar (d : Nat) : Char := Char.ofNat (48 + d)

def digitsStr (l : List Nat) : String := String.mk (l.map digitChar)

def digitsVal (l : List Nat) : Nat := l.foldl (fun a d => 10 * a + d) 0

/-- Big-endian decimal digits of a natural (fuel-driven, fuel `n` always
suffices). -/
def natDigitsGo : Nat → Nat → List Nat
  | 0, n => [n % 10]
  | fuel + 1, n => if n < 10 then [n] else natDigitsGo fuel (n / 10) ++ [n % 10]

def natDigits (n : Nat) : List Nat := natDigitsGo n n

/-- Python `str()` of an int. -/
def intStr (n : Int) : String :=
  (if n < 0 then "-" else "") ++ digitsStr (natDigits n.natAbs)

/-- An exact decimal number `num / 10 ^ exp`.  All arithmetic on these is
over `Int`/`Nat` (kernel-evaluable); `Dec.val` interprets into `ℚ` for
specification statements only. -/
structure Dec where
  num : Int
  exp : Nat
deriving Repr, DecidableEq

def Dec.val (d : Dec) : ℚ := (d.num : ℚ) / 10 ^ d.exp

def Dec.add (a b : Dec) : Dec :=
  ⟨a.num * 10 ^ b.exp + b.num * 10 ^ a.exp, a.exp + b.exp⟩

/-- Comparison of exact decimals, agreeing with `≤` on their values. -/
def Dec.ble (a b : Dec) : Bool :=
  a.num * 10 ^ b.exp ≤ b.num * 10 ^ a.exp

def Dec.isZero (d : Dec) : Bool := d.num == 0

structure PyFloat where
  neg : Bool
  ip : List Nat
  fp : List Nat

/-- Display form `repr(f)`, also `str(f)`. -/
def PyFloat.str (f : PyFloat) : String :=
  (if f.neg then "-" else "") ++ digitsStr f.ip ++ "." ++ digitsStr f.fp

/-- Exact decimal carried by the display form. -/
def PyFloat.dec (f : PyFloat) : Dec :=
  ⟨(if f.neg then -1 else 1) * ((digitsVal f.ip : Int) * 10 ^ f.fp.length + digitsVal f.fp),
    f.fp.length⟩

/-- Displayed rational value. -/
def PyFloat.val (f : PyFloat) : ℚ :=
  (if f.neg then -1 else 1) * ((digitsVal f.ip : ℚ) + (digitsVal f.fp : ℚ) / 10 ^ f.fp.length)

/-- The display invariants Python float reprs satisfy: digits in range,
both parts nonempty, no spurious leading zero before the point and no
trailing zero after it (keeping one digit each side). -/
def PyFloat.wf (f : PyFloat) : Bool :=
  !f.ip.isEmpty && !f.fp.isEmpty && f.ip.all (fun d => d < 10) &&
    f.fp.all (fun d => d < 10) &&
    (f.ip.length == 1 || f.ip.headD 0 != 0) &&
    (f.fp.length == 1 || f.fp.getLastD 0 != 0)

inductive PyNum : Type where
  | pint : Int → PyNum
  | pfloat : PyFloat → PyNum

/-- Python `str()` of an int-or-float. -/
def pyNumStr : PyNum → String
  | .pint n => intStr n
  | .pfloat f => f.str

/-- Numeric value used by comparisons. -/
def pyNumVal : PyNum → ℚ
  | .pint n => (n : ℚ)
  | .pfloat f => f.val

/-- Exact decimal carried by an int-or-float. -/
def pyNumDec : PyNum → Dec
  | .pint n => ⟨n, 0⟩
  | .pfloat f => f.dec

/-- Python `s.rsplit(".", maxsplit=1)[-1]`: the part after the last dot,
or the whole string when no dot occurs. -/
def lastDotSeg (s : String) : String :=
  String.mk ((s.data.reverse.takeWhile (fun c => c ≠ '.')).reverse)

/-! ## Python `float(str)` as an exact rational parser -/

def isPyWs (c : Char) : Bool :=
  c = ' ' || c = '\t' || c = '\n' || c = '\r' || c = '\x0b' || c = '\x0c'

/-- Consume `\d(_?\d)*` (digits with single underscores between digits),
returning value, digit count and the unconsumed remainder. -/
def digitsUndGo (v k : Nat) : List Char → Nat × Nat × List Char
  | [] => (v, k, [])
  | c :: cs =>
      if c.isDigit then digitsUndGo (10 * v + (c.toNat - 48)) (k + 1) cs
      else if c = '_' then
        match cs with
        | c2 :: cs2 =>
            if c2.isDigit then digitsUndGo (10 * v + (c2.toNat - 48)) (k + 1) cs2
            else (v, k, '_' :: c2 :: cs2)
        | [] => (v, k, ['_'])
      else (v, k, c :: cs)

/-- Exact-decimal model of Python `float(s)` on finite decimal literals:
optional surrounding whitespace and sign, digits with optional single
underscores, optional fraction, optional exponent. -/
def pyFloatParse (s : String) : Option Dec :=
  let cs0 := ((s.data.dropWhile isPyWs).reverse.dropWhile isPyWs).reverse
  let sgnCs : Bool × List Char :=
    match cs0 with
    | '+' :: r => (false, r)
    | '-' :: r => (true, r)
    | r => (false, r)
  let intPart : Nat × Nat × List Char :=
    match sgnCs.2 with
    | c :: _ => if c.isDigit then digitsUndGo 0 0 sgnCs.2 else (0, 0, sgnCs.2)
    | [] => (0, 0, [])
  let fracPart : Nat × Nat × List Char :=
    match intPart.2.2 with
    | '.' :: r =>
        (match r with
         | c :: _ => if c.isDigit then digitsUndGo 0 0 r else (0, 0, r)
         | [] => (0, 0, []))
    | r => (0, 0, r)
  let expPart : Option (Int × List Char) :=
    match fracPart.2.2 with
    | c :: r =>
        if c = 'e' ∨ c = 'E' then
          let sgnR : Int × List Char :=
            match r with
            | '+' :: rr => (1, rr)
            | '-' :: rr => (-1, rr)
            | rr => (1, rr)
          match sgnR.2 with
          | c2 :: _ =>
              if c2.isDigit then
                let d := digitsUndGo 0 0 sgnR.2
                some (sgnR.1 * d.1, d.2.2)
              else none
          | [] => none
        else some (0, c :: r)
    | [] => some (0, [])
  match expPart with
  | none => none
  | some (e, rest) =>
      if intPart.2.1 + fracPart.2.1 == 0 || !rest.isEmpty then none
      else
        let base : Int := (intPart.1 : Int) * 10 ^ fracPart.2.1 + (fracPart.1 : Int)
        let mag : Dec :=
          if 0 ≤ e then ⟨base * 10 ^ e.toNat, fracPart.2.1⟩
          else ⟨base, fracPart.2.1 + (-e).toNat⟩
        some (if sgnCs.1 then ⟨-mag.num, mag.exp⟩ else mag)

/-! ## Calendar dates -/

structure Date where
  year : Nat
  month : Nat
  day : Nat
deriving Repr, DecidableEq

def isLeap (y : Nat) : Bool := (y % 4 == 0 && y % 100 != 0) || y % 400 == 0

def daysInMonth (y m : Nat) : Nat :=
  if m = 2 then (if isLeap y then 29 else 28)
  else if m = 4 ∨ m = 6 ∨ m = 9 ∨ m = 11 then 30
  else 31

/-- datetime.date comparison, lexicographic. -/
def dateLt (a b : Date) : Bool :=
  a.year < b.year ∨ (a.year = b.year ∧ (a.month < b.month ∨
    (a.month = b.month ∧ a.day < b.day)))

def allDigits (s : String) : Bool := !s.data.isEmpty && s.data.all Char.isDigit

/-- Numeric value of a digit string (the strings fed to it are checked by
`allDigits` first). -/
def digitsOf (s : String) : Nat := digitsVal (s.data.map (fun c => c.toNat - 48))

/-- Python `s.split(sep)` for a one-character separator (empty pieces
kept), matching how the strptime formats cut at their literal
separators. -/
def splitOnCharAux (sep : Char) (cur : List Char) : List Char → List String
  | [] => [String.mk cur.reverse]
  | c :: cs =>
      if c = sep then String.mk cur.reverse :: splitOnCharAux sep [] cs
      else splitOnCharAux sep (c :: cur) cs

def splitOnChar (sep : Char) (s : String) : List String :=
  splitOnCharAux sep [] s.data

/-- CPython strptime `%d` token: 1-2 digits valued 1..31, or a space
followed by a nonzero digit. -/
def dayTok (s : String) : Option Nat :=
  match s.data with
  | [' ', c] => if c.isDigit && c ≠ '0' then some (c.toNat - 48) else none
  | _ =>
      if (s.data.length == 1 || s.data.length == 2) && allDigits s then
        let v := digitsOf s
        if 1 ≤ v ∧ v ≤ 31 then some v else none
      else none

/-- CPython strptime `%m` token: 1-2 digits valued 1..12. -/
def monthTok (s : String) : Option Nat :=
  if (s.data.length == 1 || s.data.length == 2) && allDigits s then
    let v := digitsOf s
    if 1 ≤ v ∧ v ≤ 12 then some v else none
  else none

/-- CPython strptime `%Y` token: exactly 4 digits. -/
def yearTok (s : String) : Option Nat :=
  if s.data.length == 4 && allDigits s then some (digitsOf s) else none

/-- CPython strptime `%H` token: 1-2 digits valued 0..23. -/
def hourTok (s : String) : Option Nat :=
  if (s.data.length == 1 || s.data.length == 2) && allDigits s then
    let v := digitsOf s
    if v ≤ 23 then some v else none
  else none

/-- CPython strptime `%M` token: 1-2 digits valued 0..59. -/
def minTok (s : String) : Option Nat :=
  if (s.data.length == 1 || s.data.length == 2) && allDigits s then
    let v := digitsOf s
    if v ≤ 59 then some v else none
  else none

/-- CPython strptime `%S` token: 1-2 digits valued 0..61 (60 and 61 pass
the token but are rejected later by the `datetime` constructor). -/
def secTok (s : String) : Option Nat :=
  if (s.data.length == 1 || s.data.length == 2) && allDigits s then
    let v := digitsOf s
    if v ≤ 61 then some v else none
  else none

/-- Parse of `datetime.strptime(s, "%d/%m/%Y")` followed by the
constructor's calendar checks (`ValueError` on both kinds of failure). -/
def strptime_dmY (s : String) : Option Date :=
  match splitOnChar '/' s with
  | [ds, ms, ys] =>
      (match dayTok ds, monthTok ms, yearTok ys with
       | some d, some m, some y =>
           if 1 ≤ y ∧ d ≤ daysInMonth y m then some ⟨y, m, d⟩ else none
       | _, _, _ => none)
  | _ => none

namespace TransferRequest

def VALID_TRANSFER_TYPES : List String := ["ORDINARY", "URGENT", "IMMEDIATE"]

/-- Embedding of `TransferRequest.validate_concept`: length between 10 and
30 and at least two whitespace-separated words. -/
def validate_concept (concept : String) : Except String String :=
  if ¬(10 ≤ concept.length ∧ concept.length ≤ 30) ∨ (pySplitWs concept).length < 2 then
    .error "Invalid concept: Must be 10-30 characters and contain at least two words"
  else .ok concept

/-- Embedding of `TransferRequest.validate_transfer_type`. -/
def validate_transfer_type (t : String) : Except String String :=
  if VALID_TRANSFER_TYPES.contains t then .ok t
  else .error "Invalid transfer type: Must be 'ORDINARY', 'URGENT', or 'IMMEDIATE'"

/-- Embedding of `TransferRequest.validate_date`.  `datetime.today()` is
passed explicitly as `today`. -/
def validate_date (today : Date) (date_str : String) : Except String String :=
  match strptime_dmY date_str with
  | none => .error "Invalid date format: Must be 'DD/MM/YYYY'"
  | some d =>
      if ¬(2025 ≤ d.year ∧ d.year ≤ 2050) then
        .error "Invalid year: Must be between 2025 and 2050"
      else if dateLt d today then .error "Invalid date: Cannot be in the past"
      else .ok date_str

/-- Embedding of `TransferRequest.validate_amount`: a numeric range check,
then a check that the text after the last dot of `str(amount)` has at most
two characters. -/
def validate_amount (amount : PyNum) : Except String PyNum :=
  if !(Dec.ble ⟨10, 0⟩ (pyNumDec amount) && Dec.ble (pyNumDec amount) ⟨10000, 0⟩) then
    .error "Invalid amount: Must be between 10.00 and 10000.00"
  else if 2 < (lastDotSeg (pyNumStr amount)).length then
    .error "Invalid amount: Can have at most 2 decimal places"
  else .ok amount

end TransferRequest

example : pyFloatParse "100" = some ⟨100, 0⟩ := by decide

/-- Python `s.replace(",", ".")`, the call the balance pipeline makes:
with one-character arguments this is a character substitution. -/
def pyReplaceCommaDot (s : String) : String :=
  String.mk (s.data.map (fun c => if c = ',' then '.' else c))

example : pyFloatParse (pyReplaceCommaDot "1,5") = some ⟨15, 1⟩ := by decide

example : pyFloatParse "abc" = none := by decide

example : pyFloatParse "  -1.5e+2  " = some ⟨-1500, 1⟩ := by decide

example : pyFloatParse "1_0.5_5" = some ⟨1055, 2⟩ := by decide

example : pyFloatParse "1_" = none := by decide

example : pyFloatParse "1.e3" = some ⟨1000, 0⟩ := by decide

/-! ## Error model shared by the pipelines -/

/-- A raised exception: `am msg` is `AccountManagementException(msg)`;
`amMissing ks` is the missing-keys `AccountManagementException`, carrying
the absent required keys (Python joins them in unspecified set order);
`py name` is an untyped Python exception of the named class. -/
inductive AmOrPy : Type where
  | am : String → AmOrPy
  | amMissing : List String → AmOrPy
  | py : String → AmOrPy
deriving Repr, DecidableEq

/-! ## Transfer pipeline (`transfer_request`) -/

/-- Scan of `any(t["transfer_code"] == transfer.transfer_code for t in
transfers)`: subscripting a non-dict raises `TypeError`, a dict without
the key raises `KeyError`, otherwise the comparison is type-strict. -/
def scanDup (code : String) : List JsonVal → Except String Bool
  | [] => .ok false
  | t :: rest =>
      match t with
      | .jobj fs =>
          (match JsonVal.lookupLast fs "transfer_code" with
           | none => .error "KeyError"
           | some v => if v.pyEqStr code then .ok true else scanDup code rest)
      | _ => .error "TypeError"

/-- Result of `transfer_request`: on success the returned transfer code
and the full ledger written back to `transfers.json`; on failure the
raised exception (nothing is written then). -/
inductive TRResult : Type where
  | ok : String → List JsonVal → TRResult
  | err : AmOrPy → TRResult

/-- Ledger contents written by a run, if any. -/
def TRResult.written : TRResult → Option (List JsonVal)
  | .ok _ l => some l
  | .err _ => none

/-- The `to_json` dictionary of a validated `TransferRequest`, key order
as in the source. -/
def transferRecord (fromIban toIban ttype concept date amountRepr tsRepr code : String) :
    JsonVal :=
  .jobj [("from_iban", .jstr fromIban), ("to_iban", .jstr toIban),
    ("transfer_type", .jstr ttype), ("transfer_amount", .jnum amountRepr),
    ("transfer_concept", .jstr concept), ("transfer_date", .jstr date),
    ("time_stamp", .jnum tsRepr), ("transfer_code", .jstr code)]

/-- Embedding of module-level `transfer_request`.  The constructor
validates from-IBAN, to-IBAN, type, concept, date, amount in that order
(first failure raises); `today` is `datetime.today()`'s date and `tsRepr`
the display string of the generated timestamp.  `ledger` is the parse of
`transfers.json`: `none` when the file is missing or undecodable (the
recovery path that substitutes an empty list). -/
def transfer_request (fromIban toIban concept ttype date : String) (amount : PyNum)
    (today : Date) (tsRepr : String) (ledger : Option (List JsonVal)) : TRResult :=
  match TransferRequest.validate_iban fromIban with
  | .error m => .err (.am m)
  | .ok _ =>
  match TransferRequest.validate_iban toIban with
  | .error m => .err (.am m)
  | .ok _ =>
  match TransferRequest.validate_transfer_type ttype with
  | .error m => .err (.am m)
  | .ok _ =>
  match TransferRequest.validate_concept concept with
  | .error m => .err (.am m)
  | .ok _ =>
  match TransferRequest.validate_date today date with
  | .error m => .err (.am m)
  | .ok _ =>
  match TransferRequest.validate_amount amount with
  | .error m => .err (.am m)
  | .ok _ =>
  let amountRepr := pyNumStr amount
  let code := TransferRequest.transfer_code fromIban toIban ttype concept date amountRepr tsRepr
  let transfers := ledger.getD []
  match scanDup code transfers with
  | .error exc => .err (.py exc)
  | .ok true => .err (.am "Duplicate transfer detected")
  | .ok false =>
      .ok code (transfers ++ [transferRecord fromIban toIban ttype concept date amountRepr tsRepr code])

/-! ## Deposit pipeline (`deposit_into_account`) -/

/-- Python truthiness of a loaded JSON value (`if not data`). -/
def JsonVal.falsy : JsonVal → Bool
  | .jnull => true
  | .jbool b => !b
  | .jnum s => (match pyFloatParse s with | some d => d.isZero | none => false)
  | .jstr s => s.isEmpty
  | .jarr xs => xs.isEmpty
  | .jobj fs => fs.isEmpty

/-- Match of `re.match(r'^EUR\s(\d+\.\d{2})$', s)`: the tag, one
whitespace character, digits, a dot, exactly two digits, then the end of
the string (Python `$` also accepts a single final newline).  Returns the
captured value as an exact decimal. -/
def eurMatch (s : String) : Option Dec :=
  match s.data with
  | 'E' :: 'U' :: 'R' :: c :: rest =>
      if isPyWs c then
        let ds := rest.takeWhile Char.isDigit
        match rest.dropWhile Char.isDigit with
        | '.' :: d1 :: d2 :: tail =>
            if !ds.isEmpty && d1.isDigit && d2.isDigit && (tail == [] || tail == ['\n']) then
              some ⟨(digitsVal (ds.map (fun ch => ch.toNat - 48)) : Int) * 100 +
                ((d1.toNat - 48) * 10 + (d2.toNat - 48)), 2⟩
            else none
        | _ => none
      else none
  | _ => none

namespace AccountDeposit

/-- Embedding of `account_deposit.validate_amount`: the argument is the
JSON value under `amount`; `re.match` raises `TypeError` on a non-string. -/
def validate_amount (amount : JsonVal) : Except AmOrPy Dec :=
  match amount with
  | .jstr s =>
      (match eurMatch s with
       | some d => .ok d
       | none => .error (.am "Invalid amount format"))
  | _ => .error (.py "TypeError")

end AccountDeposit

/-- Parse of `datetime.strptime(s, "%Y-%m-%dT%H:%M:%SZ")` including the
constructor's calendar checks.  The `%S` token itself admits 60 and 61,
which the `datetime` constructor then rejects; both failures surface as
the same `ValueError`, so the check below folds them together. -/
def depositDateOk (s : String) : Bool :=
  match splitOnChar 'T' s with
  | [dPart, tPart] =>
      (match splitOnChar '-' dPart with
       | [ys, ms, ds] =>
           (match yearTok ys, monthTok ms, dayTok ds with
            | some y, some m, some d =>
                (match splitOnChar ':' tPart with
                 | [hs, mins, secz] =>
                     (match secz.data.reverse with
                      | 'Z' :: secRev =>
                          let ss := String.mk secRev.reverse
                          (match hourTok hs, minTok mins, secTok ss with
                           | some _, some _, some sec =>
                               1 ≤ y && d ≤ daysInMonth y m && sec ≤ 59
                           | _, _, _ => false)
                      | _ => false)
                 | _ => false)
            | _, _, _ => false)
       | _ => false)
  | _ => false

namespace AccountDeposit

/-- Embedding of `account_deposit.validate_date`: `strptime` raises
`TypeError` on a non-string, `ValueError` (wrapped into the typed
exception by the caller) on a malformed date. -/
def validate_date (v : JsonVal) : Except AmOrPy Unit :=
  match v with
  | .jstr s => if depositDateOk s then .ok () else .error (.am "Invalid deposit_date format")
  | _ => .error (.py "TypeError")

end AccountDeposit

/-- Display string of the float parsed from a captured `digits.dd` amount:
`repr` drops trailing fractional zeros (keeping one digit) and leading
integer-part zeros.  The argument is the exact value scaled by 100. -/
def centsRepr (total : Nat) : String :=
  let c := total % 100
  digitsStr (natDigits (total / 100)) ++ "." ++
    (if c % 10 == 0 then (if c == 0 then "0" else digitsStr [c / 10]) else digitsStr [c / 10, c % 10])

/-- State of the deposit input file. -/
inductive DepFile : Type where
  | missing : DepFile
  | badSyntax : DepFile
  | parsed : JsonVal → DepFile

/-- Successful outcome of `deposit_into_account`: the returned signature,
plus the name and contents of the single file the function writes. -/
structure DepositOutput where
  signature : String
  fileName : String
  content : JsonVal

def requiredKeys : List String := ["alg", "typ", "iban", "amount", "deposit_date"]

/-- The required keys absent from the loaded mapping (`required_keys -
data.keys()`), in the order the required-key set literal is written;
Python joins them in unspecified set order. -/
def missingOf (fs : List (String × JsonVal)) : List String :=
  requiredKeys.filter (fun k => !JsonVal.hasKey fs k)

/-- The constant check `data["alg"] != "SHA-256" or data["typ"] !=
"DEPOSIT"`, negated. -/
def algTypOk (fs : List (String × JsonVal)) : Bool :=
  ((JsonVal.lookupLast fs "alg").getD .jnull |>.pyEqStr "SHA-256") &&
    ((JsonVal.lookupLast fs "typ").getD .jnull |>.pyEqStr "DEPOSIT")

/-- The string under the `iban` key (defined when the IBAN validator has
returned `True`). -/
def ibanStrOf (fs : List (String × JsonVal)) : String :=
  match JsonVal.lookupLast fs "iban" with
  | some (.jstr s) => s
  | _ => ""

/-- Embedding of `deposit_into_account`.  `tsRepr` is the display string
of the timestamp generated inside the `AccountDeposit` constructor and
`tsInt` its integer truncation (used in the output file name); `file` is
the state of the input file. -/
def deposit_into_account (tsRepr : String) (tsInt : Int) (file : DepFile) :
    Except AmOrPy DepositOutput :=
  match file with
  | .missing => .error (.am "The data file is not found")
  | .badSyntax => .error (.am "The file is not in JSON format")
  | .parsed v =>
    match firstRepeat (hookKeys v) with
    | some k => .error (.am ("Duplicate " ++ k ++ " key found in JSON"))
    | none =>
      if v.falsy then .error (.am "Empty JSON data")
      else
        match v with
        | .jobj fs =>
            if !(missingOf fs).isEmpty then .error (.amMissing (missingOf fs))
            else if !algTypOk fs then
              .error (.am "Invalid alg or typ value")
            else
              match AccountDeposit.validate_iban ((JsonVal.lookupLast fs "iban").getD .jnull) with
              | .error m => .error (.am m)
              | .ok false => .error (.am "Invalid IBAN format")
              | .ok true =>
                match AccountDeposit.validate_amount ((JsonVal.lookupLast fs "amount").getD .jnull) with
                | .error e => .error e
                | .ok amt =>
                  match AccountDeposit.validate_date ((JsonVal.lookupLast fs "deposit_date").getD .jnull) with
                  | .error e => .error e
                  | .ok _ =>
                      let ibanStr := ibanStrOf fs
                      let amountRepr := centsRepr amt.num.toNat
                      let sig := AccountDeposit.deposit_signature ibanStr amountRepr tsRepr
                      .ok ⟨sig, "deposit_" ++ ibanStr ++ "_" ++ intStr tsInt ++ ".json",
                        .jobj [("alg", .jstr "SHA-256"), ("type", .jstr "DEPOSIT"),
                          ("to_iban", .jstr ibanStr), ("deposit_amount", .jnum amountRepr),
                          ("deposit_date", .jnum tsRepr), ("deposit_signature", .jstr sig)]⟩
        | _ => .error (.py "AttributeError")

/-! ## Balance pipeline (`AccountManager.calculate_balance`) -/

/-- State of the transactions file. -/
inductive BalFile : Type where
  | missing : BalFile
  | badSyntax : BalFile
  | parsed : JsonVal → BalFile

/-- The filtering loop of `calculate_balance`: non-dict entries and dicts
without both keys are skipped; a matching entry's amount must be a string
(`.replace` raises `AttributeError` otherwise) parsing as a float after
comma-to-dot substitution. -/
def balLoop (iban : String) : List JsonVal → Dec → Bool → Except AmOrPy (Dec × Bool)
  | [], bal, found => .ok (bal, found)
  | t :: rest, bal, found =>
      match t with
      | .jobj fs =>
          if !(JsonVal.hasKey fs "IBAN" && JsonVal.hasKey fs "amount") then
            balLoop iban rest bal found
          else if (JsonVal.lookupLast fs "IBAN").getD .jnull |>.pyEqStr iban then
            match (JsonVal.lookupLast fs "amount").getD .jnull with
            | .jstr a =>
                (match pyFloatParse (pyReplaceCommaDot a) with
                 | some q => balLoop iban rest (bal.add q) true
                 | none => .error (.am "Invalid amount format in transactions file"))
            | _ => .error (.py "AttributeError")
          else balLoop iban rest bal found
      | _ => balLoop iban rest bal found

/-- Embedding of `AccountManager.calculate_balance`.  On success the
function writes the balance snapshot and returns `True`; the model's
success value is the computed balance (exact decimal). -/
def calculate_balance (iban : String) (file : BalFile) : Except AmOrPy Dec :=
  if !AccountManager.validate_iban iban then .error (.am "Invalid IBAN format")
  else
    match file with
    | .missing => .error (.am "Transactions file not found")
    | .badSyntax => .error (.am "Error decoding JSON file")
    | .parsed v =>
        match v with
        | .jarr xs =>
            (match balLoop iban xs ⟨0, 0⟩ false with
             | .error e => .error e
             | .ok (bal, found) =>
                 if !found then .error (.am "IBAN not found in transactions file")
                 else .ok bal)
        | _ => .error (.am "Invalid transactions data format")

/-! Concrete sanity checks of the pipelines. -/

example : calculate_balance "ES1234567890123456789012"
    (.parsed (.jarr [.jobj [("IBAN", .jstr "ES1234567890123456789012"), ("amount", .jstr "100")],
      .jobj [("IBAN", .jstr "ES1234567890123456789012"), ("amount", .jstr "50")]])) =
    .ok ⟨150, 0⟩ := rfl

example : calculate_balance "ES1234567890123456789012" (.parsed (.jarr [])) =
    .error (.am "IBAN not found in transactions file") := rfl

example : deposit_into_account "1700.5" 1700 .missing =
    .error (.am "The data file is not found") := rfl

example : deposit_into_account "1700.5" 1700 (.parsed (.jobj [])) =
    .error (.am "Empty JSON data") := rfl

example : deposit_into_account "1700.5" 1700 (.parsed (.jobj [("alg", .jstr "SHA-256")])) =
    .error (.amMissing ["typ", "iban", "amount", "deposit_date"]) := rfl

/-! Date-validator sanity checks against CPython strptime behaviour. -/

example : strptime_dmY " 5/3/2025" = some ⟨2025, 3, 5⟩ := rfl

example : strptime_dmY "05/3/2025" = some ⟨2025, 3, 5⟩ := rfl

example : strptime_dmY "31/4/2025" = none := rfl

example : strptime_dmY "00/1/2025" = none := rfl

example : strptime_dmY "1/1/0000" = none := rfl

example : strptime_dmY "011/1/2025" = none := rfl

example : TransferRequest.validate_date ⟨2026, 10, 12⟩ "31/12/2050" = .ok "31/12/2050" := rfl

example : TransferRequest.validate_date ⟨2026, 10, 12⟩ "31/12/2024" =
    .error "Invalid year: Must be between 2025 and 2050" := rfl

example : depositDateOk "2025-03-15T10:30:00Z" = true := rfl

example : depositDateOk "2025-02-30T10:30:00Z" = false := rfl

example : depositDateOk "2025-03-15T10:30:61Z" = false := rfl

example : depositDateOk "2025-03-15 10:30:00Z" = false := rfl

/-! ## Lemmas about the duplicate scan -/

theorem firstRepeatAux_eq_none {l seen : List String} :
    firstRepeatAux seen l = none ↔ l.Nodup ∧ ∀ x ∈ l, x ∉ seen := by
  induction l generalizing seen with
  | nil => simp [firstRepeatAux]
  | cons x xs ih =>
      by_cases hx : seen.contains x
      · simp only [firstRepeatAux, hx, if_pos]
        have : x ∈ seen := by simpa using hx
        simp_all
      · simp only [firstRepeatAux, hx, if_neg, Bool.false_eq_true, not_false_iff]
        rw [ih]
        have hxs : x ∉ seen := by simpa using hx
        constructor
        · rintro ⟨hnd, hmem⟩
          refine ⟨List.nodup_cons.mpr ⟨fun hxin => ?_, hnd⟩, ?_⟩
          · exact (hmem x hxin) (List.mem_cons_self x seen)
          · intro y hy
            rcases List.mem_cons.mp hy with rfl | hy'
            · exact hxs
            · intro hcon
              exact (hmem _ hy') (List.mem_cons_of_mem _ hcon)
        · rintro ⟨hnd, hmem⟩
          rcases List.nodup_cons.mp hnd with ⟨hxnotin, hnd'⟩
          refine ⟨hnd', fun y hy hcon => ?_⟩
          rcases List.mem_cons.mp hcon with rfl | hcon'
          · exact hxnotin hy
          · exact (hmem y (List.mem_cons_of_mem _ hy)) hcon'

theorem firstRepeat_eq_none {l : List String} : firstRepeat l = none ↔ l.Nodup := by
  rw [firstRepeat, firstRepeatAux_eq_none]
  simp

theorem firstRepeat_isSome {l : List String} : (firstRepeat l).isSome = true ↔ ¬ l.Nodup := by
  rw [← firstRepeat_eq_none]
  cases h : firstRepeat l <;> simp [h]

mutual

theorem objLocalDup_global : ∀ v : JsonVal, objLocalDup v = true → ¬ (hookKeys v).Nodup
  | .jobj fs => by
      intro h hnd
      rw [objLocalDup] at h
      rw [hookKeys] at hnd
      rcases Bool.or_eq_true_iff.mp h with h1 | h2
      · exact (firstRepeat_isSome.mp h1) hnd.of_append_right
      · exact objLocalDupFields_global fs h2 hnd.of_append_left
  | .jarr xs => by
      intro h hnd
      rw [objLocalDup] at h
      rw [hookKeys] at hnd
      exact objLocalDupArr_global xs h hnd
  | .jnull => by intro h; simp [objLocalDup] at h
  | .jbool b => by intro h; simp [objLocalDup] at h
  | .jnum s => by intro h; simp [objLocalDup] at h
  | .jstr s => by intro h; simp [objLocalDup] at h

theorem objLocalDupArr_global : ∀ xs : List JsonVal,
    objLocalDupArr xs = true → ¬ (hookKeysArr xs).Nodup
  | [] => by intro h; simp [objLocalDupArr] at h
  | x :: xs => by
      intro h hnd
      rw [objLocalDupArr] at h
      rw [hookKeysArr] at hnd
      rcases Bool.or_eq_true_iff.mp h with h1 | h2
      · exact objLocalDup_global x h1 hnd.of_append_left
      · exact objLocalDupArr_global xs h2 hnd.of_append_right

theorem objLocalDupFields_global : ∀ fs : List (String × JsonVal),
    objLocalDupFields fs = true → ¬ (hookKeysFields fs).Nodup
  | [] => by intro h; simp [objLocalDupFields] at h
  | (k, v) :: fs => by
      intro h hnd
      rw [objLocalDupFields] at h
      rw [hookKeysFields] at hnd
      rcases Bool.or_eq_true_iff.mp h with h1 | h2
      · exact objLocalDup_global v h1 hnd.of_append_left
      · exact objLocalDupFields_global fs h2 hnd.of_append_right

end

/-- C1.  The loader succeeds exactly when no key name repeats in the
whole-document key sequence (the per-hook `key_counts` dictionary is
shared across objects), a duplicate anywhere in that sequence produces the
duplicate-key exception, any object-local duplicate is in particular such
a global duplicate, and syntactically invalid text fails with the decode
error. -/
theorem C1_load_json_duplicate_spec (v : JsonVal) :
    (load_json_with_duplicate_check (some v) = .ok v ↔ (hookKeys v).Nodup) ∧
    ((∃ k, load_json_with_duplicate_check (some v) = .error (.dupKey k)) ↔
      ¬ (hookKeys v).Nodup) ∧
    (objLocalDup v = true → ¬ (hookKeys v).Nodup) ∧
    load_json_with_duplicate_check none = .error .decodeError := by
  refine ⟨?_, ?_, objLocalDup_global v, rfl⟩
  · rw [load_json_with_duplicate_check, ← firstRepeat_eq_none]
    cases h : firstRepeat (hookKeys v) <;> simp [h]
  · rw [load_json_with_duplicate_check, ← firstRepeat_eq_none]
    cases h : firstRepeat (hookKeys v) <;> simp [h]

/-- C1, witness: instantiation of the specification at a document with an
object-local duplicate key. -/
theorem C1_witness :
    ¬ (hookKeys (.jobj [("x", .jnum "1"), ("x", .jnum "2")])).Nodup :=
  (C1_load_json_duplicate_spec (.jobj [("x", .jnum "1"), ("x", .jnum "2")])).2.2.1 rfl

/-- C1, counterexample to the claim as stated: a syntactically valid
document in which no single object repeats a key (the name `x` appears
once each in two distinct nested objects) is nevertheless rejected by
`load_json_with_duplicate_check`. -/
theorem C1_counterexample :
    objLocalDup (.jobj [("a", .jobj [("x", .jnum "1")]), ("b", .jobj [("x", .jnum "2")])]) =
      false ∧
    load_json_with_duplicate_check
      (some (.jobj [("a", .jobj [("x", .jnum "1")]), ("b", .jobj [("x", .jnum "2")])])) =
      .error (.dupKey "x") :=
  ⟨rfl, rfl⟩

/-! ## Lemmas for the IBAN validators -/

theorem isDigit_not_ws {c : Char} (h : c.isDigit = true) : c.isWhitespace = false := by
  cases hw : c.isWhitespace
  · rfl
  · exfalso
    unfold Char.isWhitespace at hw
    simp only [decide_eq_true_eq, Bool.or_eq_true] at hw
    have hcases : c = ' ' ∨ c = '\t' ∨ c = '\n' ∨ c = '\x0d' := by tauto
    rcases hcases with h1 | h1 | h1 | h1 <;> subst h1 <;> exact absurd h (by decide)

theorem pySplitWsAux_no_ws :
    ∀ cs : List Char, (∀ c ∈ cs, c.isWhitespace = false) → ∀ cur : List Char,
      pySplitWsAux cur cs =
        if cur.isEmpty && cs.isEmpty then [] else [String.mk (cur.reverse ++ cs)]
  | [], _, cur => by
      cases cur <;> simp [pySplitWsAux]
  | c :: cs, h, cur => by
      have hc : c.isWhitespace = false := h c (List.mem_cons_self c cs)
      have hrest : ∀ c' ∈ cs, c'.isWhitespace = false :=
        fun c' hc' => h c' (List.mem_cons_of_mem _ hc')
      rw [pySplitWsAux, hc]
      simp only [Bool.false_eq_true, if_neg, not_false_iff]
      rw [pySplitWsAux_no_ws cs hrest (c :: cur)]
      simp [List.reverse_cons, List.append_assoc]

theorem pySplitWs_no_ws {s : String} (hne : s.data ≠ [])
    (h : ∀ c ∈ s.data, c.isWhitespace = false) : pySplitWs s = [s] := by
  rw [pySplitWs, pySplitWsAux_no_ws s.data h []]
  have hemp : s.data.isEmpty = false := by
    cases hd : s.data
    · exact absurd hd hne
    · rfl
  simp [hemp]

theorem es22Full_data_ne_nil {s : String} (h : es22Full s = true) : s.data ≠ [] := by
  intro hnil
  rw [es22Full, hnil] at h
  simp at h

theorem es22Full_chars {s : String} (h : es22Full s = true) :
    ∀ c ∈ s.data, c.isWhitespace = false := by
  rw [es22Full] at h
  simp only [Bool.and_eq_true, beq_iff_eq, List.all_eq_true] at h
  obtain ⟨⟨htake, _⟩, hdig⟩ := h
  intro c hc
  have hc2 : c ∈ List.take 2 s.data ++ List.drop 2 s.data := by
    rw [List.take_append_drop]
    exact hc
  rcases List.mem_append.mp hc2 with hin | hin
  · have hES : c = 'E' ∨ c = 'S' := by
      rw [htake] at hin
      simpa using hin
    rcases hES with rfl | rfl <;> rfl
  · exact isDigit_not_ws (hdig c hin)

theorem es22Full_head {s : String} (h : es22Full s = true) : es22Head s = true := by
  rw [es22Full] at h
  rw [es22Head]
  simp only [Bool.and_eq_true, beq_iff_eq, List.all_eq_true] at h ⊢
  obtain ⟨⟨htake, hlen⟩, hdig⟩ := h
  refine ⟨⟨by simp [htake], by simp [hlen]⟩, fun c hc => hdig c ?_⟩
  exact List.mem_of_mem_take hc

/-- C2, amended.  The transfer validator accepts exactly the full-match
language; the balance validator computes the head-match language (so it
also accepts strings with trailing characters); the deposit validator
accepts a string exactly when it head-matches and its whitespace-split
tokens do not repeat — in particular every exact `ES`+22-digit IBAN is
accepted by all three. -/
theorem C2_iban_validators_spec (s : String) :
    (TransferRequest.validate_iban s = .ok s ↔ es22Full s = true) ∧
    (es22Full s = false → TransferRequest.validate_iban s =
      .error "Invalid IBAN: Must start with 'ES' and contain 24 digits") ∧
    AccountManager.validate_iban s = es22Head s ∧
    (es22Full s = true → es22Head s = true) ∧
    (es22Full s = true → AccountDeposit.validate_iban (.jstr s) = .ok true) ∧
    (AccountDeposit.validate_iban (.jstr s) = .ok true ↔
      es22Head s = true ∧ firstRepeat (pySplitWs s) = none) ∧
    (es22Head s = false → AccountDeposit.validate_iban (.jstr s) = .ok false) := by
  refine ⟨?_, ?_, rfl, fun h => es22Full_head h, ?_, ?_, ?_⟩
  · rw [TransferRequest.validate_iban]
    cases h : es22Full s <;> simp [h]
  · intro h
    rw [TransferRequest.validate_iban, h]
    simp
  · intro h
    rw [AccountDeposit.validate_iban, es22Full_head h]
    rw [pySplitWs_no_ws (es22Full_data_ne_nil h) (es22Full_chars h)]
    rfl
  · rw [AccountDeposit.validate_iban]
    cases hh : es22Head s
    · simp
    · simp only [Bool.not_true, Bool.false_eq_true, if_neg, not_false_iff, true_and]
      cases hfr : firstRepeat (pySplitWs s) <;> simp [hfr]
  · intro h
    rw [AccountDeposit.validate_iban, h]
    rfl

/-- C2, witness: the specification applied at an exact Spanish IBAN,
showing the deposit validator accepts it. -/
theorem C2_witness :
    AccountDeposit.validate_iban (.jstr "ES9121000418450200051332") = .ok true :=
  (C2_iban_validators_spec "ES9121000418450200051332").2.2.2.2.1 rfl

/-- C2, counterexample to the claim as stated: a string that is not
exactly `ES` followed by 22 digits (it has a trailing letter) is accepted
by the deposit and balance validators, though rejected by the transfer
validator. -/
theorem C2_counterexample :
    es22Full "ES1234567890123456789012X" = false ∧
    AccountDeposit.validate_iban (.jstr "ES1234567890123456789012X") = .ok true ∧
    AccountManager.validate_iban "ES1234567890123456789012X" = true ∧
    TransferRequest.validate_iban "ES1234567890123456789012X" =
      .error "Invalid IBAN: Must start with 'ES' and contain 24 digits" :=
  ⟨rfl, rfl, rfl, rfl⟩

/-! ## Lemmas about the hexadecimal digest rendering -/

theorem hexDigit_mem (n : Nat) : hexDigit n ∈ hexChars := by
  unfold hexDigit
  rcases Nat.lt_or_ge n 16 with h | h
  · interval_cases n <;> decide
  · rw [List.getD_eq_default]
    · decide
    · simpa using h

theorem hexString_length (bytes : List Nat) : (hexString bytes).length = 2 * bytes.length := by
  rw [hexString]
  show ((bytes.map byteHex).flatten).length = 2 * bytes.length
  induction bytes with
  | nil => rfl
  | cons b bs ih =>
      simp only [List.map_cons, List.flatten_cons, List.length_append, List.length_cons, ih]
      simp [byteHex]
      omega

theorem hexString_mem (bytes : List Nat) : ∀ c ∈ (hexString bytes).data, c ∈ hexChars := by
  intro c hc
  rw [hexString] at hc
  simp only [List.mem_flatten, List.mem_map] at hc
  obtain ⟨l, ⟨b, _, rfl⟩, hcl⟩ := hc
  have : c = hexDigit (b / 16 % 16) ∨ c = hexDigit (b % 16) := by simpa [byteHex] using hcl
  rcases this with rfl | rfl <;> exact hexDigit_mem _

theorem sha256Bytes_length (msg : List Nat) : (sha256Bytes msg).length = 32 := by
  rw [sha256Bytes]
  simp [be4]

theorem md5Bytes_length (msg : List Nat) : (md5Bytes msg).length = 16 := by
  rw [md5Bytes]
  simp [le4]

/-- C3.  Both signatures are pure functions of the record field values
(their display strings included), so recomputing over identical values
yields identical output, and the rendered digest is exactly 64 lowercase
hexadecimal characters for `deposit_signature` (SHA-256) and exactly 32
for `transfer_code` (MD5). -/
theorem C3_signature_shape
    (iban amountRepr dateRepr fromIban toIban ttype concept date aRepr tsRepr : String) :
    (AccountDeposit.deposit_signature iban amountRepr dateRepr).length = 64 ∧
    (∀ c ∈ (AccountDeposit.deposit_signature iban amountRepr dateRepr).data, c ∈ hexChars) ∧
    (TransferRequest.transfer_code fromIban toIban ttype concept date aRepr tsRepr).length = 32 ∧
    (∀ c ∈ (TransferRequest.transfer_code fromIban toIban ttype concept date aRepr tsRepr).data,
      c ∈ hexChars) ∧
    AccountDeposit.deposit_signature iban amountRepr dateRepr =
      AccountDeposit.deposit_signature iban amountRepr dateRepr ∧
    TransferRequest.transfer_code fromIban toIban ttype concept date aRepr tsRepr =
      TransferRequest.transfer_code fromIban toIban ttype concept date aRepr tsRepr := by
  refine ⟨?_, hexString_mem _, ?_, hexString_mem _, rfl, rfl⟩
  · rw [AccountDeposit.deposit_signature, hexString_length, sha256Bytes_length]
  · rw [TransferRequest.transfer_code, hexString_length, md5Bytes_length]

/-! ## Lemmas about decimal digit strings and exact decimals -/

theorem str_ext {a b : String} (h : a.data = b.data) : a = b := by
  cases a
  cases b
  exact congrArg String.mk h

theorem digitsStr_length (l : List Nat) : (digitsStr l).length = l.length := by
  simp [digitsStr, String.length]

theorem natDigitsGo_digit_lt : ∀ fuel n, ∀ d ∈ natDigitsGo fuel n, d < 10
  | 0, n => by
      intro d hd
      rw [natDigitsGo] at hd
      simp only [List.mem_singleton] at hd
      subst hd
      omega
  | fuel + 1, n => by
      intro d hd
      rw [natDigitsGo] at hd
      by_cases h : n < 10
      · rw [if_pos h] at hd
        simp only [List.mem_singleton] at hd
        subst hd
        exact h
      · rw [if_neg h] at hd
        rcases List.mem_append.mp hd with h1 | h1
        · exact natDigitsGo_digit_lt fuel (n / 10) d h1
        · simp only [List.mem_singleton] at h1
          subst h1
          omega

theorem natDigitsGo_len_pos : ∀ fuel n, 1 ≤ (natDigitsGo fuel n).length
  | 0, n => by simp [natDigitsGo]
  | fuel + 1, n => by
      rw [natDigitsGo]
      by_cases h : n < 10
      · simp [h]
      · simp [h]

theorem natDigitsGo_len2 : ∀ fuel n, 10 ≤ n → 1 ≤ fuel → 2 ≤ (natDigitsGo fuel n).length
  | 0, _, _, hf => by omega
  | fuel + 1, n, hn, _ => by
      rw [natDigitsGo, if_neg (by omega)]
      have := natDigitsGo_len_pos fuel (n / 10)
      simp only [List.length_append, List.length_cons, List.length_nil]
      omega

theorem natDigitsGo_len3 : ∀ fuel n, 100 ≤ n → 2 ≤ fuel → 3 ≤ (natDigitsGo fuel n).length
  | 0, _, _, hf => by omega
  | fuel + 1, n, hn, hf => by
      rw [natDigitsGo, if_neg (by omega)]
      have h2 : 2 ≤ (natDigitsGo fuel (n / 10)).length :=
        natDigitsGo_len2 fuel (n / 10) (by omega) (by omega)
      simp only [List.length_append, List.length_cons, List.length_nil]
      omega

theorem natDigitsGo_len_le1 : ∀ fuel n, n ≤ 9 → (natDigitsGo fuel n).length = 1
  | 0, n, _ => by simp [natDigitsGo]
  | fuel + 1, n, h => by
      rw [natDigitsGo, if_pos (by omega)]
      rfl

theorem natDigitsGo_len_le2 : ∀ fuel n, n ≤ 99 → (natDigitsGo fuel n).length ≤ 2
  | 0, n, _ => by simp [natDigitsGo]
  | fuel + 1, n, h => by
      rw [natDigitsGo]
      by_cases h10 : n < 10
      · simp [h10]
      · rw [if_neg h10]
        have := natDigitsGo_len_le1 fuel (n / 10) (by omega)
        simp only [List.length_append, List.length_cons, List.length_nil]
        omega

theorem takeWhile_of_all {α} (p : α → Bool) :
    ∀ l : List α, (∀ c ∈ l, p c = true) → l.takeWhile p = l
  | [], _ => rfl
  | x :: xs, h => by
      rw [List.takeWhile_cons, h x (List.mem_cons_self x xs),
        takeWhile_of_all p xs (fun c hc => h c (List.mem_cons_of_mem _ hc))]
      simp

theorem lastDotSeg_no_dot {s : String} (h : ∀ c ∈ s.data, c ≠ '.') : lastDotSeg s = s := by
  rw [lastDotSeg]
  rw [takeWhile_of_all _ s.data.reverse
    (fun c hc => by simpa using h c (List.mem_reverse.mp hc))]
  rw [List.reverse_reverse]

theorem digitChar_ne_dot {d : Nat} (h : d < 10) : digitChar d ≠ '.' := by
  interval_cases d <;> decide

theorem lastDotSeg_intStr {n : ℤ} (h : 0 ≤ n) :
    lastDotSeg (intStr n) = digitsStr (natDigits n.natAbs) := by
  have hdata : (intStr n).data = (digitsStr (natDigits n.natAbs)).data := by
    rw [intStr, if_neg (by omega)]
    rw [String.data_append]
    rfl
  rw [str_ext hdata]
  apply lastDotSeg_no_dot
  intro c hc
  rw [digitsStr] at hc
  simp only [List.mem_map] at hc
  obtain ⟨d, hd, rfl⟩ := hc
  exact digitChar_ne_dot (natDigitsGo_digit_lt _ _ d hd)

theorem Dec.ble_int (a b : Int) : Dec.ble ⟨a, 0⟩ ⟨b, 0⟩ = decide (a ≤ b) := by
  simp [Dec.ble]

theorem Dec.ble_val {a b : Dec} : Dec.ble a b = true ↔ a.val ≤ b.val := by
  rw [Dec.ble, Dec.val, Dec.val, decide_eq_true_iff,
    div_le_div_iff₀ (by positivity) (by positivity)]
  norm_cast

theorem Dec.add_val (a b : Dec) : (a.add b).val = a.val + b.val := by
  rw [Dec.add, Dec.val, Dec.val, Dec.val]
  push_cast
  rw [pow_add]
  field_simp

/-- C10.  `validate_amount` on a Python int measures the text after the
last dot of `str(amount)`, which for an int is the whole numeral, so every
in-range int with three or more digits (100..10000) is rejected with the
decimal-places message while two-digit ints pass; the numerically equal
float 500.0 is accepted while the int 500 is rejected. -/
theorem C10_validate_amount_int :
    (∀ n : ℤ, 100 ≤ n → n ≤ 10000 →
      TransferRequest.validate_amount (.pint n) =
        .error "Invalid amount: Can have at most 2 decimal places") ∧
    (∀ n : ℤ, 10 ≤ n → n ≤ 99 →
      TransferRequest.validate_amount (.pint n) = .ok (.pint n)) ∧
    TransferRequest.validate_amount (.pint 500) =
      .error "Invalid amount: Can have at most 2 decimal places" ∧
    TransferRequest.validate_amount (.pfloat ⟨false, [5, 0, 0], [0]⟩) =
      .ok (.pfloat ⟨false, [5, 0, 0], [0]⟩) := by
  refine ⟨?_, ?_, rfl, rfl⟩
  · intro n h1 h2
    rw [TransferRequest.validate_amount]
    have hble : (Dec.ble ⟨10, 0⟩ (pyNumDec (.pint n)) &&
        Dec.ble (pyNumDec (.pint n)) ⟨10000, 0⟩) = true := by
      show (Dec.ble ⟨10, 0⟩ ⟨n, 0⟩ && Dec.ble ⟨n, 0⟩ ⟨10000, 0⟩) = true
      rw [Dec.ble_int, Dec.ble_int]
      simp only [Bool.and_eq_true, decide_eq_true_eq]
      omega
    rw [hble]
    have hlen : 2 < (lastDotSeg (pyNumStr (.pint n))).length := by
      show 2 < (lastDotSeg (intStr n)).length
      rw [lastDotSeg_intStr (by omega), digitsStr_length]
      have : 3 ≤ (natDigitsGo n.natAbs n.natAbs).length :=
        natDigitsGo_len3 n.natAbs n.natAbs (by omega) (by omega)
      simpa [natDigits] using this
    simp only [Bool.not_true, Bool.false_eq_true, if_neg, not_false_iff, if_pos hlen]
  · intro n h1 h2
    rw [TransferRequest.validate_amount]
    have hble : (Dec.ble ⟨10, 0⟩ (pyNumDec (.pint n)) &&
        Dec.ble (pyNumDec (.pint n)) ⟨10000, 0⟩) = true := by
      show (Dec.ble ⟨10, 0⟩ ⟨n, 0⟩ && Dec.ble ⟨n, 0⟩ ⟨10000, 0⟩) = true
      rw [Dec.ble_int, Dec.ble_int]
      simp only [Bool.and_eq_true, decide_eq_true_eq]
      omega
    rw [hble]
    have hlen : ¬ 2 < (lastDotSeg (pyNumStr (.pint n))).length := by
      show ¬ 2 < (lastDotSeg (intStr n)).length
      rw [lastDotSeg_intStr (by omega), digitsStr_length]
      have : (natDigitsGo n.natAbs n.natAbs).length ≤ 2 :=
        natDigitsGo_len_le2 n.natAbs n.natAbs (by omega)
      simp only [natDigits]
      omega
    simp only [Bool.not_true, Bool.false_eq_true, if_neg, not_false_iff, if_neg hlen]

/-- C10, witness: the theorem applied at the int 500. -/
theorem C10_witness :
    TransferRequest.validate_amount (.pint 500) =
      .error "Invalid amount: Can have at most 2 decimal places" :=
  C10_validate_amount_int.1 500 (by omega) (by omega)

/-! ## Lemmas for the float amount validator -/

theorem takeWhile_until {α} (p : α → Bool) :
    ∀ l1 : List α, (∀ c ∈ l1, p c = true) → ∀ x, p x = false → ∀ l2 : List α,
      (l1 ++ x :: l2).takeWhile p = l1
  | [], _, x, hx, l2 => by simp [List.takeWhile_cons, hx]
  | y :: ys, h, x, hx, l2 => by
      rw [List.cons_append, List.takeWhile_cons, h y (List.mem_cons_self y ys),
        takeWhile_until p ys (fun c hc => h c (List.mem_cons_of_mem _ hc)) x hx l2]
      simp

theorem digitsStr_chars_ne_dot {l : List Nat} (h : ∀ d ∈ l, d < 10) :
    ∀ c ∈ (digitsStr l).data, (c ≠ '.' : Bool) = true := by
  intro c hc
  rw [digitsStr] at hc
  simp only [List.mem_map] at hc
  obtain ⟨d, hd, rfl⟩ := hc
  simpa using digitChar_ne_dot (h d hd)

theorem PyFloat.wf_fields {f : PyFloat} (hwf : f.wf = true) :
    f.ip ≠ [] ∧ f.fp ≠ [] ∧ (∀ d ∈ f.ip, d < 10) ∧ (∀ d ∈ f.fp, d < 10) ∧
      (f.ip.length = 1 ∨ f.ip.headD 0 ≠ 0) ∧ (f.fp.length = 1 ∨ f.fp.getLastD 0 ≠ 0) := by
  rw [PyFloat.wf] at hwf
  simp only [Bool.and_eq_true, Bool.or_eq_true, beq_iff_eq, bne_iff_ne,
    List.all_eq_true, decide_eq_true_eq, Bool.not_eq_true', List.isEmpty_eq_false] at hwf
  tauto

theorem lastDotSeg_pyFloatStr {f : PyFloat} (hwf : f.wf = true) :
    lastDotSeg f.str = digitsStr f.fp := by
  obtain ⟨_, _, _, hfp10, _, _⟩ := PyFloat.wf_fields hwf
  have hdata : (f.str).data.reverse =
      (digitsStr f.fp).data.reverse ++
        ('.' :: ((if f.neg then "-" else "").data ++ (digitsStr f.ip).data).reverse) := by
    rw [PyFloat.str, String.data_append, String.data_append, String.data_append,
      List.reverse_append, List.reverse_append]
    rfl
  rw [lastDotSeg, hdata]
  rw [takeWhile_until _ _ (fun c hc =>
    digitsStr_chars_ne_dot hfp10 c (List.mem_reverse.mp hc)) '.' (by decide) _]
  rw [List.reverse_reverse]

theorem digitsVal_concat (l : List Nat) (d : Nat) :
    digitsVal (l ++ [d]) = 10 * digitsVal l + d := by
  rw [digitsVal, digitsVal, List.foldl_append]
  rfl

theorem digitsVal_mod10 :
    ∀ l : List Nat, (∀ d ∈ l, d < 10) → l ≠ [] → digitsVal l % 10 = l.getLastD 0 := by
  intro l
  induction l using List.reverseRecOn with
  | nil => intro _ h; exact absurd rfl h
  | append_singleton l d _ =>
      intro hlt _
      rw [digitsVal_concat, List.getLastD_concat]
      have : d < 10 := hlt d (by simp)
      omega

/-- Scaled form of the displayed value. -/
theorem PyFloat.val_eq (f : PyFloat) :
    f.val = (if f.neg then (-1 : ℚ) else 1) *
      ((digitsVal f.ip : ℚ) + (digitsVal f.fp : ℚ) / 10 ^ f.fp.length) := rfl

theorem PyFloat.dec_val (f : PyFloat) : f.dec.val = f.val := by
  rw [PyFloat.dec, Dec.val, PyFloat.val]
  cases f.neg <;>
    · push_cast
      field_simp

theorem fp_len_iff_int {f : PyFloat} (hwf : f.wf = true) :
    f.fp.length ≤ 2 ↔ ∃ n : ℤ, f.val * 100 = (n : ℚ) := by
  obtain ⟨_, hfpne, _, hfp10, _, hlast⟩ := PyFloat.wf_fields hwf
  have hk1 : 1 ≤ f.fp.length := by
    cases hfp : f.fp
    · exact absurd hfp hfpne
    · simp [hfp]
  constructor
  · intro hk2
    have hcase : f.fp.length = 1 ∨ f.fp.length = 2 := by omega
    refine ⟨(if f.neg then (-1 : ℤ) else 1) *
      (100 * digitsVal f.ip + digitsVal f.fp * 10 ^ (2 - f.fp.length)), ?_⟩
    rw [PyFloat.val_eq]
    rcases hcase with hk | hk <;>
      · rw [hk]
        cases f.neg <;>
          · push_cast
            field_simp
            ring
  · rintro ⟨n, hn⟩
    by_contra hk3
    have hk : 3 ≤ f.fp.length := by omega
    rw [PyFloat.val_eq] at hn
    have h10 : (10 : ℚ) ^ f.fp.length ≠ 0 := by positivity
    have hintQ : ((100 * (digitsVal f.fp : ℤ) : ℤ) : ℚ) =
        (((if f.neg then (-1 : ℤ) else 1) * n - 100 * (digitsVal f.ip : ℤ) : ℤ) : ℚ) *
          10 ^ f.fp.length := by
      cases hneg : f.neg <;> rw [hneg] at hn <;> push_cast <;> field_simp at hn ⊢
      · linear_combination hn
      · linear_combination -hn
    have hint : (100 * (digitsVal f.fp : ℤ) : ℤ) =
        ((if f.neg then (-1 : ℤ) else 1) * n - 100 * (digitsVal f.ip : ℤ)) *
          10 ^ f.fp.length := by
      exact_mod_cast hintQ
    set k := f.fp.length with hkdef
    set I := (digitsVal f.ip : ℤ) with hI
    set F := (digitsVal f.fp : ℤ) with hF
    have hdvd : (10 : ℤ) ^ k ∣ 100 * F :=
      ⟨(if f.neg then (-1 : ℤ) else 1) * n - 100 * I, by rw [hint]; ring⟩
    have hdvd2 : (10 : ℤ) ^ (k - 2) ∣ F := by
      have hsplit : (10 : ℤ) ^ k = 100 * 10 ^ (k - 2) := by
        have : k = 2 + (k - 2) := by omega
        rw [this, pow_add]
        norm_num
      rw [hsplit] at hdvd
      rcases hdvd with ⟨c, hc⟩
      refine ⟨c, ?_⟩
      have h100 : (100 : ℤ) ≠ 0 := by norm_num
      apply mul_left_cancel₀ h100
      linarith [hc]
    have hdvd10 : (10 : ℤ) ∣ F := dvd_trans (dvd_pow_self 10 (by omega : k - 2 ≠ 0)) hdvd2
    have hmod : digitsVal f.fp % 10 = f.fp.getLastD 0 := digitsVal_mod10 f.fp hfp10 hfpne
    have hlast0 : f.fp.getLastD 0 ≠ 0 := by
      rcases hlast with h1 | h1
      · omega
      · exact h1
    have : (10 : ℤ) ∣ (digitsVal f.fp : ℤ) := hdvd10
    rw [Int.dvd_iff_emod_eq_zero] at this
    have hnat : digitsVal f.fp % 10 = 0 := by exact_mod_cast this
    omega

theorem Dec.val_intLit (m : ℤ) : Dec.val ⟨m, 0⟩ = (m : ℚ) := by
  norm_num [Dec.val]

theorem C7_core {f : PyFloat} (hwf : f.wf = true) :
    TransferRequest.validate_amount (.pfloat f) = .ok (.pfloat f) ↔
      10 ≤ f.val ∧ f.val ≤ 10000 ∧ ∃ n : ℤ, f.val * 100 = (n : ℚ) := by
  have hv10 : Dec.ble ⟨10, 0⟩ f.dec = true ↔ 10 ≤ f.val := by
    rw [Dec.ble_val, PyFloat.dec_val, Dec.val_intLit]
    norm_num
  have hv10000 : Dec.ble f.dec ⟨10000, 0⟩ = true ↔ f.val ≤ 10000 := by
    rw [Dec.ble_val, PyFloat.dec_val, Dec.val_intLit]
    norm_num
  have hlen : (lastDotSeg (pyNumStr (.pfloat f))).length = f.fp.length := by
    show (lastDotSeg f.str).length = f.fp.length
    rw [lastDotSeg_pyFloatStr hwf, digitsStr_length]
  rw [TransferRequest.validate_amount]
  cases h1 : (Dec.ble ⟨10, 0⟩ (pyNumDec (.pfloat f)) &&
      Dec.ble (pyNumDec (.pfloat f)) ⟨10000, 0⟩) with
  | true =>
      rw [if_neg (by decide : ¬ ((!true) = true))]
      have hble := (Bool.and_eq_true _ _).mp h1
      by_cases h2 : 2 < (lastDotSeg (pyNumStr (.pfloat f))).length
      · rw [if_pos h2]
        constructor
        · intro h
          exact absurd h (by simp)
        · rintro ⟨_, _, n, hn⟩
          have hle2 : f.fp.length ≤ 2 := (fp_len_iff_int hwf).mpr ⟨n, hn⟩
          rw [hlen] at h2
          exact absurd hle2 (by omega)
      · rw [if_neg h2]
        constructor
        · intro _
          refine ⟨hv10.mp hble.1, hv10000.mp hble.2, (fp_len_iff_int hwf).mp ?_⟩
          rw [hlen] at h2
          omega
        · intro _
          rfl
  | false =>
      rw [if_pos (by decide : (!false) = true)]
      constructor
      · intro h
        exact absurd h (by simp)
      · rintro ⟨ha, hb, _⟩
        exact absurd ((Bool.and_eq_true _ _).mpr ⟨hv10.mpr ha, hv10000.mpr hb⟩)
          (by rw [show pyNumDec (PyNum.pfloat f) = f.dec from rfl] at h1; simp [h1])

/-- C7.  Over Python floats (display-form model, well-formed reprs),
`TransferRequest.validate_amount` accepts exactly the values in the
inclusive range [10.00, 10000.00] whose value has at most 2 fractional
digits (equivalently, 100 times the value is an integer); in particular
it accepts the boundary values 10.0 and 10000.0, and rejects 9.99,
10000.01 and 10.333. -/
theorem C7_validate_amount_range :
    (∀ f : PyFloat, f.wf = true →
      (TransferRequest.validate_amount (.pfloat f) = .ok (.pfloat f) ↔
        10 ≤ f.val ∧ f.val ≤ 10000 ∧ ∃ n : ℤ, f.val * 100 = (n : ℚ))) ∧
    TransferRequest.validate_amount (.pfloat ⟨false, [1, 0], [0]⟩) =
      .ok (.pfloat ⟨false, [1, 0], [0]⟩) ∧
    TransferRequest.validate_amount (.pfloat ⟨false, [1, 0, 0, 0, 0], [0]⟩) =
      .ok (.pfloat ⟨false, [1, 0, 0, 0, 0], [0]⟩) ∧
    TransferRequest.validate_amount (.pfloat ⟨false, [9], [9, 9]⟩) =
      .error "Invalid amount: Must be between 10.00 and 10000.00" ∧
    TransferRequest.validate_amount (.pfloat ⟨false, [1, 0, 0, 0, 0], [0, 1]⟩) =
      .error "Invalid amount: Must be between 10.00 and 10000.00" ∧
    TransferRequest.validate_amount (.pfloat ⟨false, [1, 0], [3, 3, 3]⟩) =
      .error "Invalid amount: Can have at most 2 decimal places" :=
  ⟨fun _ hwf => C7_core hwf, rfl, rfl, rfl, rfl, rfl⟩

/-- C7, witness: the characterisation applied at the boundary float
10.0. -/
theorem C7_witness :
    TransferRequest.validate_amount (.pfloat ⟨false, [1, 0], [0]⟩) =
        .ok (.pfloat ⟨false, [1, 0], [0]⟩) ↔
      10 ≤ PyFloat.val ⟨false, [1, 0], [0]⟩ ∧ PyFloat.val ⟨false, [1, 0], [0]⟩ ≤ 10000 ∧
        ∃ n : ℤ, PyFloat.val ⟨false, [1, 0], [0]⟩ * 100 = (n : ℚ) :=
  C7_validate_amount_range.1 ⟨false, [1, 0], [0]⟩ rfl

/-- C8.  `validate_date` accepts a string exactly when it parses under the
`%d/%m/%Y` grammar (including the calendar checks of the `datetime`
constructor), the year lies in [2025, 2050], and the date is not strictly
before the current date; concretely (current date 12/10/2026) it rejects
31/12/2024 and 1/1/2051 and accepts 31/12/2050 and the current date. -/
theorem C8_validate_date_spec :
    (∀ (today : Date) (s : String),
      TransferRequest.validate_date today s = .ok s ↔
        ∃ d, strptime_dmY s = some d ∧ 2025 ≤ d.year ∧ d.year ≤ 2050 ∧
          dateLt d today = false) ∧
    TransferRequest.validate_date ⟨2026, 10, 12⟩ "31/12/2024" =
      .error "Invalid year: Must be between 2025 and 2050" ∧
    TransferRequest.validate_date ⟨2026, 10, 12⟩ "1/1/2051" =
      .error "Invalid year: Must be between 2025 and 2050" ∧
    TransferRequest.validate_date ⟨2026, 10, 12⟩ "31/12/2050" = .ok "31/12/2050" ∧
    TransferRequest.validate_date ⟨2026, 10, 12⟩ "12/10/2026" = .ok "12/10/2026" := by
  refine ⟨?_, rfl, rfl, rfl, rfl⟩
  intro today s
  cases hp : strptime_dmY s with
  | none =>
      simp only [TransferRequest.validate_date, hp]
      constructor
      · intro h
        exact absurd h (by simp)
      · rintro ⟨d, hd, _⟩
        cases hd
  | some d =>
      simp only [TransferRequest.validate_date, hp]
      by_cases hy : 2025 ≤ d.year ∧ d.year ≤ 2050
      · rw [if_neg (not_not_intro hy)]
        cases hlt : dateLt d today with
        | false =>
            rw [if_neg (by simp)]
            constructor
            · intro _
              exact ⟨d, rfl, hy.1, hy.2, hlt⟩
            · intro _
              rfl
        | true =>
            rw [if_pos rfl]
            constructor
            · intro h
              exact absurd h (by simp)
            · rintro ⟨d', hd', _, _, hflt⟩
              injection hd' with hdd
              subst hdd
              rw [hlt] at hflt
              cases hflt
      · rw [if_pos hy]
        constructor
        · intro h
          exact absurd h (by simp)
        · rintro ⟨d', hd', h1, h2, _⟩
          injection hd' with hdd
          subst hdd
          exact absurd ⟨h1, h2⟩ hy

theorem isEmpty_false_of_ne {α} {l : List α} (h : l ≠ []) : l.isEmpty = false := by
  cases l
  · exact absurd rfl h
  · rfl

/-- C5.  The deposit pipeline applies its checks in the fixed source
order — file presence; JSON syntax; duplicate keys; empty mapping;
missing required keys (the error carries exactly the absent members of
the required set); the alg/typ constants; then the IBAN, amount and date
validators, each failure terminal — and only when every check passes does
it return the success value carrying the single output file write. -/
theorem C5_deposit_check_order (tsRepr : String) (tsInt : Int) :
    deposit_into_account tsRepr tsInt .missing =
      .error (.am "The data file is not found") ∧
    deposit_into_account tsRepr tsInt .badSyntax =
      .error (.am "The file is not in JSON format") ∧
    (∀ (v : JsonVal) (k : String), firstRepeat (hookKeys v) = some k →
      deposit_into_account tsRepr tsInt (.parsed v) =
        .error (.am ("Duplicate " ++ k ++ " key found in JSON"))) ∧
    deposit_into_account tsRepr tsInt (.parsed (.jobj [])) =
      .error (.am "Empty JSON data") ∧
    (∀ (fs : List (String × JsonVal)) (k : String),
      k ∈ missingOf fs ↔ k ∈ requiredKeys ∧ JsonVal.hasKey fs k = false) ∧
    (∀ fs, firstRepeat (hookKeys (.jobj fs)) = none → fs ≠ [] → missingOf fs ≠ [] →
      deposit_into_account tsRepr tsInt (.parsed (.jobj fs)) =
        .error (.amMissing (missingOf fs))) ∧
    (∀ fs, firstRepeat (hookKeys (.jobj fs)) = none → fs ≠ [] → missingOf fs = [] →
      algTypOk fs = false →
      deposit_into_account tsRepr tsInt (.parsed (.jobj fs)) =
        .error (.am "Invalid alg or typ value")) ∧
    (∀ fs, firstRepeat (hookKeys (.jobj fs)) = none → fs ≠ [] → missingOf fs = [] →
      algTypOk fs = true →
      AccountDeposit.validate_iban ((JsonVal.lookupLast fs "iban").getD .jnull) = .ok false →
      deposit_into_account tsRepr tsInt (.parsed (.jobj fs)) =
        .error (.am "Invalid IBAN format")) ∧
    (∀ fs m, firstRepeat (hookKeys (.jobj fs)) = none → fs ≠ [] → missingOf fs = [] →
      algTypOk fs = true →
      AccountDeposit.validate_iban ((JsonVal.lookupLast fs "iban").getD .jnull) = .error m →
      deposit_into_account tsRepr tsInt (.parsed (.jobj fs)) = .error (.am m)) ∧
    (∀ fs e, firstRepeat (hookKeys (.jobj fs)) = none → fs ≠ [] → missingOf fs = [] →
      algTypOk fs = true →
      AccountDeposit.validate_iban ((JsonVal.lookupLast fs "iban").getD .jnull) = .ok true →
      AccountDeposit.validate_amount ((JsonVal.lookupLast fs "amount").getD .jnull) =
        .error e →
      deposit_into_account tsRepr tsInt (.parsed (.jobj fs)) = .error e) ∧
    (∀ fs amt e, firstRepeat (hookKeys (.jobj fs)) = none → fs ≠ [] → missingOf fs = [] →
      algTypOk fs = true →
      AccountDeposit.validate_iban ((JsonVal.lookupLast fs "iban").getD .jnull) = .ok true →
      AccountDeposit.validate_amount ((JsonVal.lookupLast fs "amount").getD .jnull) =
        .ok amt →
      AccountDeposit.validate_date ((JsonVal.lookupLast fs "deposit_date").getD .jnull) =
        .error e →
      deposit_into_account tsRepr tsInt (.parsed (.jobj fs)) = .error e) ∧
    (∀ fs amt, firstRepeat (hookKeys (.jobj fs)) = none → fs ≠ [] → missingOf fs = [] →
      algTypOk fs = true →
      AccountDeposit.validate_iban ((JsonVal.lookupLast fs "iban").getD .jnull) = .ok true →
      AccountDeposit.validate_amount ((JsonVal.lookupLast fs "amount").getD .jnull) =
        .ok amt →
      AccountDeposit.validate_date ((JsonVal.lookupLast fs "deposit_date").getD .jnull) =
        .ok () →
      deposit_into_account tsRepr tsInt (.parsed (.jobj fs)) =
        .ok ⟨AccountDeposit.deposit_signature (ibanStrOf fs) (centsRepr amt.num.toNat) tsRepr,
          "deposit_" ++ ibanStrOf fs ++ "_" ++ intStr tsInt ++ ".json",
          .jobj [("alg", .jstr "SHA-256"), ("type", .jstr "DEPOSIT"),
            ("to_iban", .jstr (ibanStrOf fs)),
            ("deposit_amount", .jnum (centsRepr amt.num.toNat)),
            ("deposit_date", .jnum tsRepr),
            ("deposit_signature",
              .jstr (AccountDeposit.deposit_signature (ibanStrOf fs)
                (centsRepr amt.num.toNat) tsRepr))]⟩) := by
  refine ⟨rfl, rfl, ?_, rfl, ?_, ?_, ?_, ?_, ?_, ?_, ?_, ?_⟩
  · intro v k h
    simp only [deposit_into_account, h]
  · intro fs k
    simp [missingOf, List.mem_filter]
  · intro fs h1 h2 h3
    simp only [deposit_into_account, h1, JsonVal.falsy, isEmpty_false_of_ne h2,
      isEmpty_false_of_ne h3, Bool.not_false, if_true, Bool.false_eq_true, if_false]
  · intro fs h1 h2 h3 h4
    simp only [deposit_into_account, h1, JsonVal.falsy, isEmpty_false_of_ne h2, h3, h4,
      List.isEmpty_nil, Bool.not_true, Bool.not_false, if_true, Bool.false_eq_true, if_false]
  · intro fs h1 h2 h3 h4 h5
    simp only [deposit_into_account, h1, JsonVal.falsy, isEmpty_false_of_ne h2, h3, h4, h5,
      List.isEmpty_nil, Bool.not_true, Bool.not_false, if_true, Bool.false_eq_true, if_false]
  · intro fs m h1 h2 h3 h4 h5
    simp only [deposit_into_account, h1, JsonVal.falsy, isEmpty_false_of_ne h2, h3, h4, h5,
      List.isEmpty_nil, Bool.not_true, Bool.not_false, if_true, Bool.false_eq_true, if_false]
  · intro fs e h1 h2 h3 h4 h5 h6
    simp only [deposit_into_account, h1, JsonVal.falsy, isEmpty_false_of_ne h2, h3, h4, h5, h6,
      List.isEmpty_nil, Bool.not_true, Bool.not_false, if_true, Bool.false_eq_true, if_false]
  · intro fs amt e h1 h2 h3 h4 h5 h6 h7
    simp only [deposit_into_account, h1, JsonVal.falsy, isEmpty_false_of_ne h2, h3, h4, h5, h6,
      h7, List.isEmpty_nil, Bool.not_true, Bool.not_false, if_true, Bool.false_eq_true, if_false]
  · intro fs amt h1 h2 h3 h4 h5 h6 h7
    simp only [deposit_into_account, h1, JsonVal.falsy, isEmpty_false_of_ne h2, h3, h4, h5, h6,
      h7, List.isEmpty_nil, Bool.not_true, Bool.not_false, if_true, Bool.false_eq_true, if_false]

/-- C5, witness: the order specification applied at a duplicate-keyed
document. -/
theorem C5_witness :
    deposit_into_account "1700.5" 1700 (.parsed (.jobj [("x", .jnum "1"), ("x", .jnum "2")])) =
      .error (.am ("Duplicate " ++ "x" ++ " key found in JSON")) :=
  (C5_deposit_check_order "1700.5" 1700).2.2.1 (.jobj [("x", .jnum "1"), ("x", .jnum "2")])
    "x" rfl

/-! ## Lemmas about the transfer ledger scan -/

/-- The entry is a mapping carrying a `transfer_code` key. -/
def hasCodeKey : JsonVal → Bool
  | .jobj fs => (JsonVal.lookupLast fs "transfer_code").isSome
  | _ => false

/-- The entry's `transfer_code` equals the given code (type-strict, as the
Python `==` against a `str` is). -/
def entryCodeIs (code : String) : JsonVal → Bool
  | .jobj fs =>
      (match JsonVal.lookupLast fs "transfer_code" with
       | some v => v.pyEqStr code
       | none => false)
  | _ => false

theorem scanDup_all (code : String) :
    ∀ ts : List JsonVal, (∀ e ∈ ts, hasCodeKey e = true) →
      scanDup code ts = .ok (ts.any (entryCodeIs code))
  | [], _ => rfl
  | t :: rest, h => by
      have ht := h t (List.mem_cons_self t rest)
      cases t with
      | jobj fs =>
          rw [scanDup, List.any_cons]
          rw [hasCodeKey] at ht
          cases hl : JsonVal.lookupLast fs "transfer_code" with
          | none =>
              rw [hl] at ht
              simp at ht
          | some v =>
              cases hpe : v.pyEqStr code
              · simp only [entryCodeIs, hl, hpe, Bool.false_or]
                rw [scanDup_all code rest (fun e he => h e (List.mem_cons_of_mem _ he))]
                simp
              · simp only [entryCodeIs, hl, hpe, Bool.true_or]
                simp
      | jnull => simp [hasCodeKey] at ht
      | jbool b => simp [hasCodeKey] at ht
      | jnum s => simp [hasCodeKey] at ht
      | jstr s => simp [hasCodeKey] at ht
      | jarr xs => simp [hasCodeKey] at ht

/-- C4.  For a validated transfer: a missing or undecodable ledger file is
treated as the empty ledger and the transfer succeeds with exactly the new
record as the whole ledger; over a parsed ledger whose entries all carry a
`transfer_code`, the run fails with the duplicate-transfer error exactly
when some entry's code equals the new record's code, otherwise it returns
the new code and writes the previous sequence with the one new record
appended; and a failing run writes nothing. -/
theorem C4_transfer_request_ledger
    (fromIban toIban concept ttype date : String) (amount : PyNum) (today : Date)
    (tsRepr : String)
    (h1 : TransferRequest.validate_iban fromIban = .ok fromIban)
    (h2 : TransferRequest.validate_iban toIban = .ok toIban)
    (h3 : TransferRequest.validate_transfer_type ttype = .ok ttype)
    (h4 : TransferRequest.validate_concept concept = .ok concept)
    (h5 : TransferRequest.validate_date today date = .ok date)
    (h6 : TransferRequest.validate_amount amount = .ok amount) :
    (transfer_request fromIban toIban concept ttype date amount today tsRepr none =
      .ok
        (TransferRequest.transfer_code fromIban toIban ttype concept date
          (pyNumStr amount) tsRepr)
        [transferRecord fromIban toIban ttype concept date (pyNumStr amount) tsRepr
          (TransferRequest.transfer_code fromIban toIban ttype concept date
            (pyNumStr amount) tsRepr)]) ∧
    (∀ ts : List JsonVal, (∀ e ∈ ts, hasCodeKey e = true) →
      (transfer_request fromIban toIban concept ttype date amount today tsRepr (some ts) =
          .err (.am "Duplicate transfer detected") ↔
        ts.any (entryCodeIs (TransferRequest.transfer_code fromIban toIban ttype concept
          date (pyNumStr amount) tsRepr)) = true)) ∧
    (∀ ts : List JsonVal, (∀ e ∈ ts, hasCodeKey e = true) →
      ts.any (entryCodeIs (TransferRequest.transfer_code fromIban toIban ttype concept
        date (pyNumStr amount) tsRepr)) = false →
      transfer_request fromIban toIban concept ttype date amount today tsRepr (some ts) =
        .ok
          (TransferRequest.transfer_code fromIban toIban ttype concept date
            (pyNumStr amount) tsRepr)
          (ts ++ [transferRecord fromIban toIban ttype concept date (pyNumStr amount) tsRepr
            (TransferRequest.transfer_code fromIban toIban ttype concept date
              (pyNumStr amount) tsRepr)])) ∧
    (∀ (ledger : Option (List JsonVal)) (r : AmOrPy),
      transfer_request fromIban toIban concept ttype date amount today tsRepr ledger =
        .err r →
      (transfer_request fromIban toIban concept ttype date amount today tsRepr
        ledger).written = none) := by
  refine ⟨?_, ?_, ?_, ?_⟩
  · simp only [transfer_request, h1, h2, h3, h4, h5, h6, Option.getD, scanDup,
      List.nil_append]
  · intro ts hts
    simp only [transfer_request, h1, h2, h3, h4, h5, h6, Option.getD]
    rw [scanDup_all _ ts hts]
    cases hany : ts.any (entryCodeIs (TransferRequest.transfer_code fromIban toIban ttype
        concept date (pyNumStr amount) tsRepr))
    · simp
    · simp
  · intro ts hts hany
    simp only [transfer_request, h1, h2, h3, h4, h5, h6, Option.getD]
    rw [scanDup_all _ ts hts, hany]
  · intro ledger r h
    rw [h]
    rfl

/-- C4, witness: a validated transfer over a missing ledger file succeeds
and persists exactly the one new record. -/
theorem C4_witness :
    transfer_request "ES9121000418450200051332" "ES7921000813450200056789" "House Rent"
        "ORDINARY" "31/12/2050" (.pint 50) ⟨2026, 10, 12⟩ "1743099000.123456" none =
      .ok
        (TransferRequest.transfer_code "ES9121000418450200051332"
          "ES7921000813450200056789" "ORDINARY" "House Rent" "31/12/2050"
          (pyNumStr (.pint 50)) "1743099000.123456")
        [transferRecord "ES9121000418450200051332" "ES7921000813450200056789" "ORDINARY"
          "House Rent" "31/12/2050" (pyNumStr (.pint 50)) "1743099000.123456"
          (TransferRequest.transfer_code "ES9121000418450200051332"
            "ES7921000813450200056789" "ORDINARY" "House Rent" "31/12/2050"
            (pyNumStr (.pint 50)) "1743099000.123456")] :=
  (C4_transfer_request_ledger "ES9121000418450200051332" "ES7921000813450200056789"
    "House Rent" "ORDINARY" "31/12/2050" (.pint 50) ⟨2026, 10, 12⟩ "1743099000.123456"
    rfl rfl rfl rfl rfl rfl).1

/-! ## Lemmas about the balance loop -/

/-- The loop counts an entry: a mapping with both keys whose `IBAN` equals
the query. -/
def balMatches (iban : String) : JsonVal → Bool
  | .jobj fs => JsonVal.hasKey fs "IBAN" && JsonVal.hasKey fs "amount" &&
      ((JsonVal.lookupLast fs "IBAN").getD .jnull).pyEqStr iban
  | _ => false

/-- Parsed amount of an entry (string field, comma-to-dot, `float`). -/
def entryAmountDec : JsonVal → Option Dec
  | .jobj fs =>
      (match (JsonVal.lookupLast fs "amount").getD .jnull with
       | .jstr a => pyFloatParse (pyReplaceCommaDot a)
       | _ => none)
  | _ => none

theorem balLoop_no_match (iban : String) :
    ∀ (xs : List JsonVal) (bal : Dec) (found : Bool),
      (∀ e ∈ xs, balMatches iban e = false) →
      balLoop iban xs bal found = .ok (bal, found)
  | [], _, _, _ => rfl
  | t :: rest, bal, found, h => by
      have ht := h t (List.mem_cons_self t rest)
      have hrest := fun e he => h e (List.mem_cons_of_mem t he)
      cases t with
      | jobj fs =>
          rw [balMatches] at ht
          by_cases hk : (JsonVal.hasKey fs "IBAN" && JsonVal.hasKey fs "amount") = true
          · have heq : ((JsonVal.lookupLast fs "IBAN").getD .jnull).pyEqStr iban = false := by
              rcases Bool.and_eq_false_iff.mp ht with h' | h'
              · rw [h'] at hk
                cases hk
              · exact h'
            simp only [balLoop, hk, heq, Bool.not_true, Bool.false_eq_true, if_false]
            exact balLoop_no_match iban rest bal found hrest
          · have hk' : (JsonVal.hasKey fs "IBAN" && JsonVal.hasKey fs "amount") = false :=
              Bool.eq_false_iff.mpr hk
            simp only [balLoop, hk', Bool.not_false, if_true]
            exact balLoop_no_match iban rest bal found hrest
      | jnull => exact balLoop_no_match iban rest bal found hrest
      | jbool b => exact balLoop_no_match iban rest bal found hrest
      | jnum s => exact balLoop_no_match iban rest bal found hrest
      | jstr s => exact balLoop_no_match iban rest bal found hrest
      | jarr xs => exact balLoop_no_match iban rest bal found hrest

theorem balLoop_true_mono (iban : String) :
    ∀ (xs : List JsonVal) (bal : Dec) (d : Dec) (f : Bool),
      balLoop iban xs bal true = .ok (d, f) → f = true
  | [], bal, d, f, h => by
      rw [balLoop] at h
      injection h with h'
      injection h' with _ hf
      exact hf.symm
  | t :: rest, bal, d, f, h => by
      cases t with
      | jobj fs =>
          rw [balLoop] at h
          by_cases hk : (JsonVal.hasKey fs "IBAN" && JsonVal.hasKey fs "amount") = true
          · rw [hk] at h
            simp only [Bool.not_true, Bool.false_eq_true, if_false] at h
            cases heq : ((JsonVal.lookupLast fs "IBAN").getD .jnull).pyEqStr iban
            · rw [heq] at h
              simp only [Bool.false_eq_true, if_false] at h
              exact balLoop_true_mono iban rest bal d f h
            · rw [heq] at h
              simp only [if_true] at h
              cases hv : (JsonVal.lookupLast fs "amount").getD .jnull with
              | jstr a =>
                  simp only [hv] at h
                  cases hp : pyFloatParse (pyReplaceCommaDot a) with
                  | some q =>
                      rw [hp] at h
                      exact balLoop_true_mono iban rest (bal.add q) d f h
                  | none =>
                      rw [hp] at h
                      simp at h
              | jnull => simp only [hv] at h; simp at h
              | jbool b => simp only [hv] at h; simp at h
              | jnum s => simp only [hv] at h; simp at h
              | jarr ys => simp only [hv] at h; simp at h
              | jobj gs => simp only [hv] at h; simp at h
          · have hk' := Bool.eq_false_iff.mpr hk
            rw [hk'] at h
            simp only [Bool.not_false, if_true] at h
            exact balLoop_true_mono iban rest bal d f h
      | jnull => exact balLoop_true_mono iban rest bal d f h
      | jbool b => exact balLoop_true_mono iban rest bal d f h
      | jnum s => exact balLoop_true_mono iban rest bal d f h
      | jstr s => exact balLoop_true_mono iban rest bal d f h
      | jarr xs => exact balLoop_true_mono iban rest bal d f h

theorem balLoop_err_shape (iban : String) :
    ∀ (xs : List JsonVal) (bal : Dec) (found : Bool) (e : AmOrPy),
      balLoop iban xs bal found = .error e →
      e = .am "Invalid amount format in transactions file" ∨ e = .py "AttributeError"
  | [], bal, found, e, h => by
      rw [balLoop] at h
      cases h
  | t :: rest, bal, found, e, h => by
      cases t with
      | jobj fs =>
          rw [balLoop] at h
          by_cases hk : (JsonVal.hasKey fs "IBAN" && JsonVal.hasKey fs "amount") = true
          · rw [hk] at h
            simp only [Bool.not_true, Bool.false_eq_true, if_false] at h
            cases heq : ((JsonVal.lookupLast fs "IBAN").getD .jnull).pyEqStr iban
            · rw [heq] at h
              simp only [Bool.false_eq_true, if_false] at h
              exact balLoop_err_shape iban rest bal found e h
            · rw [heq] at h
              simp only [if_true] at h
              cases hv : (JsonVal.lookupLast fs "amount").getD .jnull with
              | jstr a =>
                  simp only [hv] at h
                  cases hp : pyFloatParse (pyReplaceCommaDot a) with
                  | some q =>
                      rw [hp] at h
                      exact balLoop_err_shape iban rest (bal.add q) true e h
                  | none =>
                      rw [hp] at h
                      injection h with h'
                      exact Or.inl h'.symm
              | jnull => simp only [hv] at h; injection h with h'; exact Or.inr h'.symm
              | jbool b => simp only [hv] at h; injection h with h'; exact Or.inr h'.symm
              | jnum s => simp only [hv] at h; injection h with h'; exact Or.inr h'.symm
              | jarr ys => simp only [hv] at h; injection h with h'; exact Or.inr h'.symm
              | jobj gs => simp only [hv] at h; injection h with h'; exact Or.inr h'.symm
          · have hk' := Bool.eq_false_iff.mpr hk
            rw [hk'] at h
            simp only [Bool.not_false, if_true] at h
            exact balLoop_err_shape iban rest bal found e h
      | jnull => exact balLoop_err_shape iban rest bal found e h
      | jbool b => exact balLoop_err_shape iban rest bal found e h
      | jnum s => exact balLoop_err_shape iban rest bal found e h
      | jstr s => exact balLoop_err_shape iban rest bal found e h
      | jarr xs => exact balLoop_err_shape iban rest bal found e h

theorem balLoop_match_found (iban : String) :
    ∀ (xs : List JsonVal) (bal : Dec) (found : Bool) (d : Dec),
      xs.any (balMatches iban) = true →
      balLoop iban xs bal found = .ok (d, false) → False
  | [], _, _, _, hany, _ => by simp at hany
  | t :: rest, bal, found, d, hany, h => by
      rw [List.any_cons] at hany
      cases t with
      | jobj fs =>
          rw [balLoop] at h
          by_cases hk : (JsonVal.hasKey fs "IBAN" && JsonVal.hasKey fs "amount") = true
          · rw [hk] at h
            simp only [Bool.not_true, Bool.false_eq_true, if_false] at h
            cases heq : ((JsonVal.lookupLast fs "IBAN").getD .jnull).pyEqStr iban
            · rw [heq] at h
              simp only [Bool.false_eq_true, if_false] at h
              have hm : balMatches iban (.jobj fs) = false := by
                rw [balMatches, hk, heq]
                rfl
              rw [hm, Bool.false_or] at hany
              exact balLoop_match_found iban rest bal found d hany h
            · rw [heq] at h
              simp only [if_true] at h
              cases hv : (JsonVal.lookupLast fs "amount").getD .jnull with
              | jstr a =>
                  simp only [hv] at h
                  cases hp : pyFloatParse (pyReplaceCommaDot a) with
                  | some q =>
                      rw [hp] at h
                      exact absurd (balLoop_true_mono iban rest (bal.add q) d false h)
                        (by simp)
                  | none =>
                      rw [hp] at h
                      cases h
              | jnull => simp only [hv] at h; cases h
              | jbool b => simp only [hv] at h; cases h
              | jnum s => simp only [hv] at h; cases h
              | jarr ys => simp only [hv] at h; cases h
              | jobj gs => simp only [hv] at h; cases h
          · have hk' := Bool.eq_false_iff.mpr hk
            rw [hk'] at h
            simp only [Bool.not_false, if_true] at h
            have hm : balMatches iban (.jobj fs) = false := by
              rw [balMatches, hk']
              rfl
            rw [hm, Bool.false_or] at hany
            exact balLoop_match_found iban rest bal found d hany h
      | jnull =>
          rw [show balMatches iban .jnull = false from rfl, Bool.false_or] at hany
          exact balLoop_match_found iban rest bal found d hany h
      | jbool b =>
          rw [show balMatches iban (.jbool b) = false from rfl, Bool.false_or] at hany
          exact balLoop_match_found iban rest bal found d hany h
      | jnum s =>
          rw [show balMatches iban (.jnum s) = false from rfl, Bool.false_or] at hany
          exact balLoop_match_found iban rest bal found d hany h
      | jstr s =>
          rw [show balMatches iban (.jstr s) = false from rfl, Bool.false_or] at hany
          exact balLoop_match_found iban rest bal found d hany h
      | jarr ys =>
          rw [show balMatches iban (.jarr ys) = false from rfl, Bool.false_or] at hany
          exact balLoop_match_found iban rest bal found d hany h

theorem balLoop_sum (iban : String) :
    ∀ (xs : List JsonVal) (bal : Dec) (found : Bool),
      (∀ e ∈ xs, balMatches iban e = true → (entryAmountDec e).isSome = true) →
      ∃ d : Dec, balLoop iban xs bal found = .ok (d, found || xs.any (balMatches iban)) ∧
        d.val = bal.val + ((xs.filter (balMatches iban)).map
          (fun e => ((entryAmountDec e).getD ⟨0, 0⟩).val)).sum
  | [], bal, found, _ => by
      refine ⟨bal, ?_, by simp⟩
      simp [balLoop]
  | t :: rest, bal, found, h => by
      have hrest := fun e he => h e (List.mem_cons_of_mem t he)
      cases hm : balMatches iban t with
      | false =>
          have hskip : balLoop iban (t :: rest) bal found = balLoop iban rest bal found := by
            cases t with
            | jobj fs =>
                rw [balMatches] at hm
                rw [balLoop]
                by_cases hk : (JsonVal.hasKey fs "IBAN" && JsonVal.hasKey fs "amount") = true
                · have heq : ((JsonVal.lookupLast fs "IBAN").getD .jnull).pyEqStr iban =
                      false := by
                    rcases Bool.and_eq_false_iff.mp hm with h' | h'
                    · rw [h'] at hk
                      cases hk
                    · exact h'
                  rw [hk, heq]
                  simp
                · rw [Bool.eq_false_iff.mpr hk]
                  simp
            | jnull => rfl
            | jbool b => rfl
            | jnum s => rfl
            | jstr s => rfl
            | jarr ys => rfl
          obtain ⟨d, hd, hsum⟩ := balLoop_sum iban rest bal found hrest
          refine ⟨d, ?_, ?_⟩
          · rw [hskip, hd, List.any_cons, hm, Bool.false_or]
          · rw [hsum]
            simp [List.filter_cons, hm]
      | true =>
          cases t with
          | jnull => rw [show balMatches iban .jnull = false from rfl] at hm; cases hm
          | jbool b => rw [show balMatches iban (.jbool b) = false from rfl] at hm; cases hm
          | jnum s => rw [show balMatches iban (.jnum s) = false from rfl] at hm; cases hm
          | jstr s => rw [show balMatches iban (.jstr s) = false from rfl] at hm; cases hm
          | jarr ys => rw [show balMatches iban (.jarr ys) = false from rfl] at hm; cases hm
          | jobj fs =>
              have hamt := h _ (List.mem_cons_self _ rest) hm
              have hm' := hm
              rw [balMatches] at hm'
              obtain ⟨hk2, heq⟩ := Bool.and_eq_true_iff.mp hm'
              cases hv : (JsonVal.lookupLast fs "amount").getD .jnull with
              | jstr a =>
                  cases hp : pyFloatParse (pyReplaceCommaDot a) with
                  | some q =>
                      obtain ⟨d, hd, hsum⟩ := balLoop_sum iban rest (bal.add q) true hrest
                      refine ⟨d, ?_, ?_⟩
                      · rw [balLoop, hk2]
                        simp only [Bool.not_true, Bool.false_eq_true, if_false]
                        rw [heq]
                        simp only [if_true]
                        simp only [hv, hp]
                        rw [hd, List.any_cons, hm]
                        simp
                      · rw [hsum, Dec.add_val]
                        simp only [List.filter_cons, hm, if_pos, List.map_cons, List.sum_cons,
                          entryAmountDec, hv, hp, Option.getD_some]
                        ring
                  | none =>
                      exfalso
                      rw [show entryAmountDec (.jobj fs) =
                        pyFloatParse (pyReplaceCommaDot a) from by
                          rw [entryAmountDec, hv], hp] at hamt
                      cases hamt
              | jnull =>
                  exfalso
                  rw [show entryAmountDec (.jobj fs) = none from by
                    rw [entryAmountDec, hv]] at hamt
                  cases hamt
              | jbool b =>
                  exfalso
                  rw [show entryAmountDec (.jobj fs) = none from by
                    rw [entryAmountDec, hv]] at hamt
                  cases hamt
              | jnum s =>
                  exfalso
                  rw [show entryAmountDec (.jobj fs) = none from by
                    rw [entryAmountDec, hv]] at hamt
                  cases hamt
              | jarr ys =>
                  exfalso
                  rw [show entryAmountDec (.jobj fs) = none from by
                    rw [entryAmountDec, hv]] at hamt
                  cases hamt
              | jobj gs =>
                  exfalso
                  rw [show entryAmountDec (.jobj fs) = none from by
                    rw [entryAmountDec, hv]] at hamt
                  cases hamt

theorem calculate_balance_err {iban : String} {xs : List JsonVal} {e : AmOrPy}
    (hib : AccountManager.validate_iban iban = true)
    (hb : balLoop iban xs ⟨0, 0⟩ false = .error e) :
    calculate_balance iban (.parsed (.jarr xs)) = .error e := by
  simp only [calculate_balance, hib, hb, Bool.not_true, Bool.false_eq_true, if_false]

theorem calculate_balance_ok {iban : String} {xs : List JsonVal} {d : Dec} {f : Bool}
    (hib : AccountManager.validate_iban iban = true)
    (hb : balLoop iban xs ⟨0, 0⟩ false = .ok (d, f)) :
    calculate_balance iban (.parsed (.jarr xs)) =
      if !f then .error (.am "IBAN not found in transactions file") else .ok d := by
  simp only [calculate_balance, hib, hb, Bool.not_true, Bool.false_eq_true, if_false]

/-- C6.  For a valid IBAN and a ledger parsing to a list: the run fails
with the IBAN-not-found error exactly when no entry matches (entries that
are not mappings or lack either key are skipped, never counted); when at
least one entry matches and every matching entry's amount parses (comma or
dot separator), the run succeeds with the sum of the matching amounts —
concretely, amounts `100` and `50` give 150, an empty ledger gives the
not-found error, and a single matching `0` amount succeeds with balance
0. -/
theorem C6_calculate_balance_spec :
    (∀ (iban : String) (xs : List JsonVal), AccountManager.validate_iban iban = true →
      (calculate_balance iban (.parsed (.jarr xs)) =
          .error (.am "IBAN not found in transactions file") ↔
        xs.any (balMatches iban) = false)) ∧
    (∀ (iban : String) (xs : List JsonVal), AccountManager.validate_iban iban = true →
      (∀ e ∈ xs, balMatches iban e = true → (entryAmountDec e).isSome = true) →
      xs.any (balMatches iban) = true →
      ∃ d : Dec, calculate_balance iban (.parsed (.jarr xs)) = .ok d ∧
        d.val = ((xs.filter (balMatches iban)).map
          (fun e => ((entryAmountDec e).getD ⟨0, 0⟩).val)).sum) ∧
    (calculate_balance "ES1234567890123456789012"
        (.parsed (.jarr [.jobj [("IBAN", .jstr "ES1234567890123456789012"),
            ("amount", .jstr "100")],
          .jobj [("IBAN", .jstr "ES1234567890123456789012"), ("amount", .jstr "50")]])) =
        .ok ⟨150, 0⟩ ∧ Dec.val ⟨150, 0⟩ = 150) ∧
    calculate_balance "ES1234567890123456789012" (.parsed (.jarr [])) =
      .error (.am "IBAN not found in transactions file") ∧
    (calculate_balance "ES1234567890123456789012"
        (.parsed (.jarr [.jobj [("IBAN", .jstr "ES1234567890123456789012"),
          ("amount", .jstr "0")]])) = .ok ⟨0, 0⟩ ∧ Dec.val ⟨0, 0⟩ = 0) := by
  refine ⟨?_, ?_, ⟨rfl, by norm_num [Dec.val]⟩, rfl, ⟨rfl, by norm_num [Dec.val]⟩⟩
  · intro iban xs hib
    constructor
    · intro hres
      by_contra hany'
      have hany : xs.any (balMatches iban) = true := by
        cases hx : xs.any (balMatches iban)
        · exact absurd hx hany'
        · rfl
      cases hb : balLoop iban xs ⟨0, 0⟩ false with
      | error e =>
          rw [calculate_balance_err hib hb] at hres
          injection hres with h1
          rcases balLoop_err_shape iban xs ⟨0, 0⟩ false e hb with rfl | rfl
          · injection h1 with h2
            exact absurd h2 (by decide)
          · cases h1
      | ok p =>
          obtain ⟨d, f⟩ := p
          cases f
          · exact balLoop_match_found iban xs ⟨0, 0⟩ false d hany hb
          · rw [calculate_balance_ok hib hb] at hres
            simp at hres
    · intro hany
      have hno : ∀ e ∈ xs, balMatches iban e = false := by
        intro e he
        cases hx : balMatches iban e
        · rfl
        · exact absurd (List.any_eq_true.mpr ⟨e, he, hx⟩) (by simp [hany])
      rw [calculate_balance_ok hib (balLoop_no_match iban xs ⟨0, 0⟩ false hno)]
      rfl
  · intro iban xs hib hparse hany
    obtain ⟨d, hd, hsum⟩ := balLoop_sum iban xs ⟨0, 0⟩ false hparse
    rw [hany] at hd
    refine ⟨d, ?_, ?_⟩
    · rw [calculate_balance_ok hib (by simpa using hd)]
      rfl
    · rw [hsum]
      norm_num [Dec.val]

/-- C6, witness: the not-found characterisation applied at a valid IBAN
over a ledger whose single entry belongs to a different IBAN. -/
theorem C6_witness :
    calculate_balance "ES1234567890123456789012"
        (.parsed (.jarr [.jobj [("IBAN", .jstr "ES9999999999999999999999"),
          ("amount", .jstr "7")]])) =
      .error (.am "IBAN not found in transactions file") :=
  (C6_calculate_balance_spec.1 "ES1234567890123456789012"
    [.jobj [("IBAN", .jstr "ES9999999999999999999999"), ("amount", .jstr "7")]] rfl).mpr rfl

/-! ## Error-taxonomy helpers -/

/-- A transfer run raised an untyped Python exception. -/
def TRResult.isPy : TRResult → Bool
  | .err (.py _) => true
  | _ => false

/-- A pipeline raised an untyped Python exception. -/
def exceptIsPy {α : Type} : Except AmOrPy α → Bool
  | .error (.py _) => true
  | _ => false

/-- An entry's `amount` field is a string. -/
def amountIsStr : JsonVal → Bool
  | .jobj fs =>
      (match (JsonVal.lookupLast fs "amount").getD .jnull with
       | .jstr _ => true
       | _ => false)
  | _ => false

/-- The value under a key is a string, or the key is absent. -/
def optIsStrOrAbsent : Option JsonVal → Bool
  | none => true
  | some (.jstr _) => true
  | some _ => false

/-- Input shapes under which the deposit pipeline raises no untyped
exception: any mapping whose `amount` and `deposit_date` values (when
present) are strings, any falsy non-mapping, and the two file-level
failures. -/
def depSafe : DepFile → Bool
  | .missing => true
  | .badSyntax => true
  | .parsed v =>
      match v with
      | .jobj fs => optIsStrOrAbsent (JsonVal.lookupLast fs "amount") &&
          optIsStrOrAbsent (JsonVal.lookupLast fs "deposit_date")
      | w => w.falsy

theorem balLoop_no_py (iban : String) :
    ∀ (xs : List JsonVal) (bal : Dec) (found : Bool) (name : String),
      (∀ e ∈ xs, balMatches iban e = true → amountIsStr e = true) →
      balLoop iban xs bal found = .error (.py name) → False
  | [], _, _, _, _, hb => by
      rw [balLoop] at hb
      cases hb
  | t :: rest, bal, found, name, h, hb => by
      have hrest := fun e he => h e (List.mem_cons_of_mem t he)
      cases t with
      | jobj fs =>
          rw [balLoop] at hb
          by_cases hk : (JsonVal.hasKey fs "IBAN" && JsonVal.hasKey fs "amount") = true
          · rw [hk] at hb
            simp only [Bool.not_true, Bool.false_eq_true, if_false] at hb
            cases heq : ((JsonVal.lookupLast fs "IBAN").getD .jnull).pyEqStr iban
            · rw [heq] at hb
              simp only [Bool.false_eq_true, if_false] at hb
              exact balLoop_no_py iban rest bal found name hrest hb
            · rw [heq] at hb
              simp only [if_true] at hb
              have hm : balMatches iban (.jobj fs) = true := by
                rw [balMatches, hk, heq]
                rfl
              have hstr := h _ (List.mem_cons_self _ rest) hm
              rw [amountIsStr] at hstr
              cases hv : (JsonVal.lookupLast fs "amount").getD .jnull with
              | jstr a =>
                  simp only [hv] at hb
                  cases hp : pyFloatParse (pyReplaceCommaDot a) with
                  | some q =>
                      rw [hp] at hb
                      exact balLoop_no_py iban rest (bal.add q) true name hrest hb
                  | none =>
                      rw [hp] at hb
                      cases hb
              | jnull => rw [hv] at hstr; cases hstr
              | jbool b => rw [hv] at hstr; cases hstr
              | jnum s => rw [hv] at hstr; cases hstr
              | jarr ys => rw [hv] at hstr; cases hstr
              | jobj gs => rw [hv] at hstr; cases hstr
          · rw [Bool.eq_false_iff.mpr hk] at hb
            simp only [Bool.not_false, if_true] at hb
            exact balLoop_no_py iban rest bal found name hrest hb
      | jnull => exact balLoop_no_py iban rest bal found name hrest hb
      | jbool b => exact balLoop_no_py iban rest bal found name hrest hb
      | jnum s => exact balLoop_no_py iban rest bal found name hrest hb
      | jstr s => exact balLoop_no_py iban rest bal found name hrest hb
      | jarr ys => exact balLoop_no_py iban rest bal found name hrest hb

theorem lookupLast_isSome (fs : List (String × JsonVal)) (k : String) :
    (JsonVal.lookupLast fs k).isSome = JsonVal.hasKey fs k := by
  induction fs with
  | nil => rfl
  | cons p rest ih =>
      obtain ⟨k', v⟩ := p
      rw [JsonVal.lookupLast]
      show _ = JsonVal.hasKey ((k', v) :: rest) k
      rw [JsonVal.hasKey, List.any_cons]
      cases hl : JsonVal.lookupLast rest k with
      | some w =>
          have hh : JsonVal.hasKey rest k = true := by
            rw [← ih, hl]
            rfl
          rw [JsonVal.hasKey] at hh
          rw [hh]
          simp
      | none =>
          have hh : JsonVal.hasKey rest k = false := by
            rw [← ih, hl]
            rfl
          rw [JsonVal.hasKey] at hh
          rw [hh]
          cases hkk : (k' == k) <;> simp [hkk]

theorem missingOf_empty_hasKey {fs : List (String × JsonVal)} (h : missingOf fs = []) :
    ∀ k ∈ requiredKeys, JsonVal.hasKey fs k = true := by
  intro k hk
  cases hn : JsonVal.hasKey fs k with
  | true => rfl
  | false =>
      exfalso
      have hmem : k ∈ missingOf fs := by
        rw [missingOf]
        exact List.mem_filter.mpr ⟨hk, by rw [hn]; rfl⟩
      rw [h] at hmem
      cases hmem

theorem validate_amount_jstr_err {a : String} {e : AmOrPy}
    (h : AccountDeposit.validate_amount (.jstr a) = .error e) :
    e = .am "Invalid amount format" := by
  rw [AccountDeposit.validate_amount] at h
  cases hm : eurMatch a
  · simp only [hm] at h
    injection h with h'
    exact h'.symm
  · simp only [hm] at h
    cases h

theorem validate_date_jstr_err {s : String} {e : AmOrPy}
    (h : AccountDeposit.validate_date (.jstr s) = .error e) :
    e = .am "Invalid deposit_date format" := by
  rw [AccountDeposit.validate_date] at h
  cases hd : depositDateOk s
  · rw [hd] at h
    simp only [Bool.false_eq_true, if_false] at h
    injection h with h'
    exact h'.symm
  · rw [hd] at h
    simp only [if_true] at h
    cases h

/-- C9, amended.  Every failure of the three pipelines is the typed
`AccountManagementException`, except on the inputs the code mishandles:
the transfer run never raises an untyped exception provided every ledger
entry is a mapping carrying `transfer_code`; the balance run never does
provided every matching entry's amount is a string (and never does for a
missing, undecodable or non-list file); the deposit run never does on
`depSafe` inputs (mapping documents whose `amount` and `deposit_date`
values are strings when present). -/
theorem C9_exception_taxonomy :
    (∀ (fromIban toIban concept ttype date : String) (amount : PyNum) (today : Date)
      (tsRepr : String) (ledger : Option (List JsonVal)),
      (∀ e ∈ ledger.getD [], hasCodeKey e = true) →
      TRResult.isPy (transfer_request fromIban toIban concept ttype date amount today
        tsRepr ledger) = false) ∧
    (∀ (iban : String) (xs : List JsonVal),
      (∀ e ∈ xs, balMatches iban e = true → amountIsStr e = true) →
      exceptIsPy (calculate_balance iban (.parsed (.jarr xs))) = false) ∧
    (∀ iban : String, exceptIsPy (calculate_balance iban .missing) = false ∧
      exceptIsPy (calculate_balance iban .badSyntax) = false ∧
      ∀ v : JsonVal, (∀ xs : List JsonVal, v ≠ .jarr xs) →
        exceptIsPy (calculate_balance iban (.parsed v)) = false) ∧
    (∀ (tsRepr : String) (tsInt : Int) (file : DepFile), depSafe file = true →
      exceptIsPy (deposit_into_account tsRepr tsInt file) = false) := by
  refine ⟨?_, ?_, ?_, ?_⟩
  · intro fI tI c ty dt a td ts ledger h
    simp only [transfer_request]
    cases h1 : TransferRequest.validate_iban fI with
    | error m => rfl
    | ok s1 =>
    cases h2 : TransferRequest.validate_iban tI with
    | error m => rfl
    | ok s2 =>
    cases h3 : TransferRequest.validate_transfer_type ty with
    | error m => rfl
    | ok s3 =>
    cases h4 : TransferRequest.validate_concept c with
    | error m => rfl
    | ok s4 =>
    cases h5 : TransferRequest.validate_date td dt with
    | error m => rfl
    | ok s5 =>
    cases h6 : TransferRequest.validate_amount a with
    | error m => rfl
    | ok s6 =>
    rw [scanDup_all _ _ h]
    cases (ledger.getD []).any (entryCodeIs (TransferRequest.transfer_code fI tI ty c dt
      (pyNumStr a) ts)) <;> rfl
  · intro iban xs h
    cases hib : AccountManager.validate_iban iban with
    | false =>
        simp only [calculate_balance, hib, Bool.not_false, if_true]
        rfl
    | true =>
        cases hb : balLoop iban xs ⟨0, 0⟩ false with
        | error e =>
            rw [calculate_balance_err hib hb]
            rcases balLoop_err_shape iban xs ⟨0, 0⟩ false e hb with rfl | rfl
            · rfl
            · exact absurd hb (fun hcon =>
                balLoop_no_py iban xs ⟨0, 0⟩ false "AttributeError" h hcon)
        | ok p =>
            obtain ⟨d, f⟩ := p
            rw [calculate_balance_ok hib hb]
            cases f <;> rfl
  · intro iban
    refine ⟨?_, ?_, ?_⟩
    · cases hib : AccountManager.validate_iban iban <;>
        simp only [calculate_balance, hib, Bool.not_false, Bool.not_true, if_true,
          Bool.false_eq_true, if_false] <;> rfl
    · cases hib : AccountManager.validate_iban iban <;>
        simp only [calculate_balance, hib, Bool.not_false, Bool.not_true, if_true,
          Bool.false_eq_true, if_false] <;> rfl
    · intro v hv
      cases hib : AccountManager.validate_iban iban
      · simp only [calculate_balance, hib, Bool.not_false, if_true]
        rfl
      · simp only [calculate_balance, hib, Bool.not_true, Bool.false_eq_true, if_false]
        cases v with
        | jarr xs => exact absurd rfl (hv xs)
        | jnull => rfl
        | jbool b => rfl
        | jnum s => rfl
        | jstr s => rfl
        | jobj fs => rfl
  · intro tsRepr tsInt file hsafe
    cases file with
    | missing => rfl
    | badSyntax => rfl
    | parsed v =>
        simp only [deposit_into_account]
        cases hdup : firstRepeat (hookKeys v) with
        | some k => rfl
        | none =>
        cases hf : v.falsy with
        | true =>
            simp only [hf, if_true]
            rfl
        | false =>
        simp only [hf, Bool.false_eq_true, if_false]
        cases v with
        | jnull => rw [JsonVal.falsy] at hf; cases hf
        | jbool b =>
            have hsafe' : JsonVal.falsy (.jbool b) = true := hsafe
            rw [hsafe'] at hf
            cases hf
        | jnum s =>
            have hsafe' : JsonVal.falsy (.jnum s) = true := hsafe
            rw [hsafe'] at hf
            cases hf
        | jstr s =>
            have hsafe' : JsonVal.falsy (.jstr s) = true := hsafe
            rw [hsafe'] at hf
            cases hf
        | jarr ys =>
            have hsafe' : JsonVal.falsy (.jarr ys) = true := hsafe
            rw [hsafe'] at hf
            cases hf
        | jobj fs =>
            have hsafe' : (optIsStrOrAbsent (JsonVal.lookupLast fs "amount") &&
                optIsStrOrAbsent (JsonVal.lookupLast fs "deposit_date")) = true := hsafe
            obtain ⟨hsa, hsd⟩ := Bool.and_eq_true_iff.mp hsafe'
            cases hmiss : (missingOf fs).isEmpty with
            | false =>
                simp only [hmiss, Bool.not_false, if_true]
                rfl
            | true =>
            have hmiss' : missingOf fs = [] := by
              cases hmo : missingOf fs
              · rfl
              · rw [hmo] at hmiss
                cases hmiss
            simp only [hmiss, Bool.not_true, Bool.false_eq_true, if_false]
            cases hat : algTypOk fs with
            | false =>
                simp only [hat, Bool.not_false, if_true]
                rfl
            | true =>
            simp only [hat, Bool.not_true, Bool.false_eq_true, if_false]
            cases hib : AccountDeposit.validate_iban
                ((JsonVal.lookupLast fs "iban").getD .jnull) with
            | error m => simp only [hib]; rfl
            | ok b =>
            cases b with
            | false => simp only [hib]; rfl
            | true =>
            simp only [hib]
            have hka : JsonVal.hasKey fs "amount" = true :=
              missingOf_empty_hasKey hmiss' "amount" (by decide)
            have hsa2 : (JsonVal.lookupLast fs "amount").isSome = true := by
              rw [lookupLast_isSome]
              exact hka
            cases hlv : JsonVal.lookupLast fs "amount" with
            | none => rw [hlv] at hsa2; cases hsa2
            | some w =>
            rw [hlv] at hsa
            cases w with
            | jstr a =>
                simp only [Option.getD_some]
                cases hva : AccountDeposit.validate_amount (.jstr a) with
                | error e =>
                    simp only [hva]
                    rw [validate_amount_jstr_err hva]
                    rfl
                | ok amt =>
                simp only [hva]
                have hkd : JsonVal.hasKey fs "deposit_date" = true :=
                  missingOf_empty_hasKey hmiss' "deposit_date" (by decide)
                have hsd2 : (JsonVal.lookupLast fs "deposit_date").isSome = true := by
                  rw [lookupLast_isSome]
                  exact hkd
                cases hld : JsonVal.lookupLast fs "deposit_date" with
                | none => rw [hld] at hsd2; cases hsd2
                | some w2 =>
                rw [hld] at hsd
                cases w2 with
                | jstr s2 =>
                    simp only [Option.getD_some]
                    cases hvd : AccountDeposit.validate_date (.jstr s2) with
                    | error e =>
                        simp only [hvd]
                        rw [validate_date_jstr_err hvd]
                        rfl
                    | ok u =>
                        simp only [hvd]
                        rfl
                | jnull => cases hsd
                | jbool b2 => cases hsd
                | jnum s2 => cases hsd
                | jarr ys2 => cases hsd
                | jobj gs2 => cases hsd
            | jnull => cases hsa
            | jbool b2 => cases hsa
            | jnum s2 => cases hsa
            | jarr ys2 => cases hsa
            | jobj gs2 => cases hsa

/-- C9, witness: a validated transfer over a well-formed ledger raises
only the typed exception family. -/
theorem C9_witness :
    TRResult.isPy (transfer_request "ES9121000418450200051332"
      "ES7921000813450200056789" "House Rent" "ORDINARY" "31/12/2050" (.pint 50)
      ⟨2026, 10, 12⟩ "1743099000.123456"
      (some [.jobj [("transfer_code", .jstr "abc")]])) = false :=
  C9_exception_taxonomy.1 "ES9121000418450200051332" "ES7921000813450200056789"
    "House Rent" "ORDINARY" "31/12/2050" (.pint 50) ⟨2026, 10, 12⟩ "1743099000.123456"
    (some [.jobj [("transfer_code", .jstr "abc")]]) (by intro e he; simp at he; rw [he]; rfl)

/-- C9, counterexample to the claim as stated: a fully validated transfer
whose parsed ledger contains a mapping without a `transfer_code` key
raises an untyped `KeyError`, not the typed exception. -/
theorem C9_counterexample :
    transfer_request "ES9121000418450200051332" "ES7921000813450200056789" "House Rent"
      "ORDINARY" "31/12/2050" (.pint 50) ⟨2026, 10, 12⟩ "1743099000.123456"
      (some [.jobj []]) = .err (.py "KeyError") := rfl
